import Mathlib

/-!
# xlog-sentry: the `Write` forwarder of `output.go`

A shallow embedding of `src/output.go`.  Go maps are reference values, so the
embedding keeps an explicit heap of maps: `Write` receives a reference to the
caller's record, `cloneFields` allocates a fresh map, and every later `delete`
and assignment goes through the reference held by the local variable `fields`.
The calls into the Sentry SDK are recorded in the `World` (the events handed to
`CaptureEvent`, the `Flush` calls); values obtained from the Go runtime are
read from an `Env`.  A call ends in a return or in a panic: the three type
assertions, `sentry.NewRequest` on a request without a URL and `CaptureEvent`
on a nil client are the places where `Write` can panic.
-/

namespace XlogSentry

/-! ## Go maps -/

/-- A Go `map[K]V`, kept as an association list; the first entry of a key is
the live one. -/
abbrev GoMap (κ : Type) (α : Type) := List (κ × α)

namespace GoMap

variable {κ : Type} {α : Type} [DecidableEq κ]

/-- The comma-ok index expression `v, ok = m[k]`. -/
def get? : GoMap κ α → κ → Option α
  | [], _ => none
  | (k', v) :: rest, k => if k' = k then some v else get? rest k

/-- The plain index expression `m[k]`, which yields the zero value `z` of the
value type when the key is missing. -/
def index (z : α) (m : GoMap κ α) (k : κ) : α :=
  (get? m k).getD z

/-- The builtin `delete(m, k)`. -/
def delete (m : GoMap κ α) (k : κ) : GoMap κ α :=
  m.filter (fun kv => decide (kv.1 ≠ k))

/-- The assignment `m[k] = v`. -/
def set (m : GoMap κ α) (k : κ) (v : α) : GoMap κ α :=
  (k, v) :: delete m k

end GoMap

/-! ## Dynamic values stored in a record (`interface{}`) -/

/-- A `time.Time`: an instant, in nanoseconds from the Unix epoch. -/
structure Time where
  unixNano : Int
  deriving DecidableEq, Repr

/-- The zero value of `time.Time`, January 1 of year 1, 00:00:00 UTC. -/
def Time.zero : Time := { unixNano := -62135596800000000000 }

/-- The fields of a `net/url.URL` that `sentry.NewRequest` reads. -/
structure HttpURL where
  Path : String
  RawQuery : String
  deriving DecidableEq, Repr

/-- The fields of a `net/http.Request` that `sentry.NewRequest` reads.  `URL` is
a pointer and may be nil (`none`); `TLS` tells whether the `TLS` pointer is
non-nil; `ForwardedProto` is the `X-Forwarded-Proto` header. -/
structure HttpRequest where
  Method : String
  Host : String
  TLS : Bool
  ForwardedProto : String
  URL : Option HttpURL
  deriving DecidableEq, Repr

/-- A value of static type `interface{}`, tagged with its dynamic type.
`request none` is a typed nil `*http.Request`; `nil` is the nil interface;
`other` stands for any dynamic type the forwarder never asserts. -/
inductive Value where
  | str (s : String)
  | time (t : Time)
  | request (r : Option HttpRequest)
  | int (n : Int)
  | nil
  | other (tag : Nat)
  deriving DecidableEq, Repr

/-- A log record, `map[string]interface{}`. -/
abbrev Fields := GoMap String Value

/-- The type assertion `v.(string)` applied to the result of indexing a record:
a missing key indexes to the nil interface, on which the assertion fails. -/
def assertString : Option Value → Option String
  | some (Value.str s) => some s
  | _ => none

/-- The type assertion `v.(time.Time)`. -/
def assertTime : Option Value → Option Time
  | some (Value.time t) => some t
  | _ => none

/-! ## Constants of the `xlog` and `sentry-go` packages -/

/-- The `xlog.Level` type (`type Level int`). -/
abbrev XLevel := Int

/-- Modelled from the spec: the level constants of package `xlog` are not under
`src/`; the spec orders the enumeration debug < info < warn < error with debug
as its zero value. -/
def LevelDebug : XLevel := 0

/-- Modelled from the spec: see `LevelDebug`. -/
def LevelInfo : XLevel := 1

/-- Modelled from the spec: see `LevelDebug`. -/
def LevelWarn : XLevel := 2

/-- Modelled from the spec: see `LevelDebug`. -/
def LevelError : XLevel := 3

/-- Modelled from the spec: the reserved key names of package `xlog` are not
under `src/`; the reserved keys are message, time, level and file. -/
def KeyMessage : String := "message"

/-- Modelled from the spec: see `KeyMessage`. -/
def KeyTime : String := "time"

/-- Modelled from the spec: see `KeyMessage`. -/
def KeyLevel : String := "level"

/-- Modelled from the spec: see `KeyMessage`. -/
def KeyFile : String := "file"

/-- The `sentry.Level` type (`type Level string`). -/
abbrev SentryLevel := String

/-- Modelled from the spec: the severity names of package `sentry-go` are not
under `src/`; its vocabulary is debug / info / warning / error. -/
def SentryLevelDebug : SentryLevel := "debug"

/-- Modelled from the spec: see `SentryLevelDebug`. -/
def SentryLevelInfo : SentryLevel := "info"

/-- Modelled from the spec: see `SentryLevelDebug`. -/
def SentryLevelWarning : SentryLevel := "warning"

/-- Modelled from the spec: see `SentryLevelDebug`. -/
def SentryLevelError : SentryLevel := "error"

/-! ## The two lookup tables (`output.go`, lines 14-28) -/

/-- The table `xlogSeverityMap`. -/
def xlogSeverityMap : GoMap String XLevel :=
  [("debug", LevelDebug), ("info", LevelInfo), ("warn", LevelWarn), ("error", LevelError)]

/-- The table `severityMap`. -/
def severityMap : GoMap XLevel SentryLevel :=
  [(LevelDebug, SentryLevelDebug), (LevelInfo, SentryLevelInfo),
   (LevelWarn, SentryLevelWarning), (LevelError, SentryLevelError)]

/-! ## Configuration (`output.go`, lines 30-54) -/

/-- The struct `StackTraceConfiguration`. -/
structure StackTraceConfiguration where
  Enable : Bool
  Level : XLevel
  Skip : Int
  Context : Int
  InAppPrefixes : List String
  deriving DecidableEq, Repr

/-- A `sentry.Client`, known by the DSN it was built for; the events it
receives are recorded in the `World`. -/
structure Client where
  dsn : String
  deriving DecidableEq, Repr

/-- The struct `Output`.  The `client` field is a pointer: it is nil (`none`) in
a zero `Output` and after `NewSentryOutput` when `sentry.NewClient` failed,
since line 58 discards the error. -/
structure Output where
  Timeout : Int
  StacktraceConfiguration : StackTraceConfiguration
  Level : XLevel
  client : Option Client
  host : String
  deriving DecidableEq, Repr

/-! ## Heap of records -/

/-- A reference to a map on the heap. -/
abbrev Ref := Nat

/-- The maps that are alive, addressed by position. -/
abbrev Heap := List Fields

namespace Heap

/-- Read the map behind a reference; a reference to nothing reads as the empty
map, as a nil map does. -/
def read (h : Heap) (r : Ref) : Fields := h.getD r []

/-- Allocate a new map (`make`), returning the heap and the new reference. -/
def alloc (h : Heap) (m : Fields) : Heap × Ref := (h ++ [m], h.length)

/-- Replace the map behind a reference. -/
def write (h : Heap) (r : Ref) (m : Fields) : Heap := h.set r m

/-- The statement `delete(fields, key)` through a reference. -/
def delete (h : Heap) (r : Ref) (key : String) : Heap :=
  write h r (GoMap.delete (read h r) key)

/-- The statement `fields[key] = v` through a reference. -/
def assign (h : Heap) (r : Ref) (key : String) (v : Value) : Heap :=
  write h r (GoMap.set (read h r) key v)

end Heap

/-! ## Events and the outside world -/

/-- A captured call stack (`*sentry.Stacktrace`). -/
structure Stacktrace where
  frames : List String
  deriving DecidableEq, Repr

/-- The `*sentry.Request` built by `sentry.NewRequest`. -/
structure SentryRequest where
  URL : String
  Method : String
  QueryString : String
  deriving DecidableEq, Repr

/-- What `Write` stores in `event.Extra`: a stack trace, or the reference to
the working copy of the record. -/
inductive ExtraValue where
  | stacktrace (s : Stacktrace)
  | fields (r : Ref)
  deriving DecidableEq, Repr

/-- The fields of `sentry.Event` that `Write` touches. -/
structure Event where
  Message : String
  Timestamp : Time
  Level : SentryLevel
  Logger : String
  ServerName : String
  Release : String
  Transaction : String
  Request : Option SentryRequest
  Extra : GoMap String ExtraValue
  deriving DecidableEq, Repr

/-- The local `raven.Packet` that `Write` builds and never submits. -/
structure Packet where
  Message : String
  Interfaces : List Stacktrace
  deriving DecidableEq, Repr

/-- What the Go runtime and the SDK hand to `Write`. -/
structure Env where
  runtimeVersion : String
  numCPU : Int
  gomaxprocs : Int
  numGoroutine : Int
  sentryStacktrace : Stacktrace
  ravenStacktrace : Int → Int → List String → Stacktrace

/-- Everything `Write` can change: the heap of maps, the events handed to
`o.client.CaptureEvent` (oldest first) and the `sentry.Flush` calls with their
wait in milliseconds. -/
structure World where
  heap : Heap
  captured : List Event
  flushes : List Int
  deriving DecidableEq, Repr

/-- How a call ends: a panic, or a return with the `error` value (`none` is
`nil`). -/
inductive Outcome where
  | panicked
  | returned (err : Option String)
  deriving DecidableEq, Repr

/-- The outcome of a call and the world it leaves. -/
structure Result where
  outcome : Outcome
  world : World
  deriving DecidableEq, Repr

/-- The constructor `sentry.NewEvent()`: a zero event but for its maps; `Extra`
is an empty, non-nil map. -/
def NewEvent : Event :=
  { Message := "", Timestamp := Time.zero, Level := "", Logger := "", ServerName := "",
    Release := "", Transaction := "", Request := none, Extra := [] }

/-- The constructor `raven.NewPacket(message)`. -/
def NewPacket (message : String) : Packet :=
  { Message := message, Interfaces := [] }

/-- The constructor `sentry.NewRequest(r)` of the SDK.  It builds the URL from
the scheme, `r.Host` and `r.URL.Path` and takes the query string from
`r.URL.RawQuery`; it dereferences `r.URL`, so on a request whose `URL` is nil it
panics (`none`). -/
def NewRequest (r : HttpRequest) : Option SentryRequest :=
  let protocol := if r.TLS || r.ForwardedProto = "https" then "https" else "http"
  match r.URL with
  | none => none
  | some u =>
    some { URL := protocol ++ "://" ++ r.Host ++ u.Path, Method := r.Method,
           QueryString := u.RawQuery }

/-! ## The helpers of `output.go` (lines 103-142) -/

/-- The function `getAndDel`: the text under `key`, removed from the map when
found; the map is left alone when the key is missing or not a text. -/
def getAndDel (h : Heap) (fields : Ref) (key : String) : Heap × String × Bool :=
  match GoMap.get? (h.read fields) key with
  | none => (h, "", false)
  | some v =>
    match v with
    | Value.str val => (h.delete fields key, val, true)
    | _ => (h, "", false)

/-- The function `getAndDelRequest`: the non-nil request under `key`, removed
from the map when found. -/
def getAndDelRequest (h : Heap) (fields : Ref) (key : String) :
    Heap × Option HttpRequest × Bool :=
  match GoMap.get? (h.read fields) key with
  | none => (h, none, false)
  | some v =>
    match v with
    | Value.request (some req) => (h.delete fields key, some req, true)
    | _ => (h, none, false)

/-- The loop of `cloneFields`: `retval[k] = v` for every entry of `src`.  Go
leaves the order of a `range` over a map open; the entries are visited from the
back of the list, so a shadowed entry never overrides the live one. -/
def cloneLoop (src : Fields) : Fields :=
  src.foldr (fun kv retval => GoMap.set retval kv.1 kv.2) []

/-- The function `cloneFields`: a fresh map holding the entries of the map
behind `src`. -/
def cloneFields (h : Heap) (src : Ref) : Heap × Ref :=
  h.alloc (cloneLoop (h.read src))

/-! ## `Write` (`output.go`, lines 144-240) -/

/-- The local variables of `Write` once the record is known to be forwarded. -/
structure Locals where
  heap : Heap
  fields : Ref
  level : XLevel
  packet : Packet
  event : Event

/-- How a stretch of `Write` ends: with the locals it leaves, or in a panic,
with the heap as it is then. -/
inductive Step where
  | ok (s : Locals)
  | panic (h : Heap)

/-- Lines 163-164: `event.Level = severityMap[level]`, `event.Logger = "xlog"`. -/
def setSeverity (s : Locals) : Locals :=
  { s with event := { s.event with Level := GoMap.index "" severityMap s.level,
                                   Logger := "xlog" } }

/-- Lines 166-169: the four reserved keys are deleted from the working copy. -/
def dropReserved (s : Locals) : Locals :=
  let h1 := s.heap.delete s.fields KeyMessage
  let h2 := h1.delete s.fields KeyTime
  let h3 := h2.delete s.fields KeyLevel
  let h4 := h3.delete s.fields KeyFile
  { s with heap := h4 }

/-- Lines 171-177: `host`, else `server_name`, else the cached host name. -/
def setServerName (o : Output) (s : Locals) : Locals :=
  let r := getAndDel s.heap s.fields "host"
  if r.2.2 then
    { s with heap := r.1, event := { s.event with ServerName := r.2.1 } }
  else
    let r2 := getAndDel r.1 s.fields "server_name"
    if r2.2.2 then
      { s with heap := r2.1, event := { s.event with ServerName := r2.2.1 } }
    else
      { s with heap := r2.1, event := { s.event with ServerName := o.host } }

/-- Lines 178-180: the optional `release`. -/
def setRelease (s : Locals) : Locals :=
  let r := getAndDel s.heap s.fields "release"
  if r.2.2 then
    { s with heap := r.1, event := { s.event with Release := r.2.1 } }
  else
    { s with heap := r.1 }

/-- Lines 181-195: `culprit`, else `role`, becomes the transaction. -/
def setTransaction (s : Locals) : Locals :=
  let r := getAndDel s.heap s.fields "culprit"
  if r.2.2 then
    { s with heap := r.1, event := { s.event with Transaction := r.2.1 } }
  else
    let r2 := getAndDel r.1 s.fields "role"
    if r2.2.2 then
      { s with heap := r2.1, event := { s.event with Transaction := r2.2.1 } }
    else
      { s with heap := r2.1 }

/-- Lines 196-204: the optional `http_request`.  Any non-nil request goes to
`sentry.NewRequest`, whose panic leaves the key already deleted. -/
def setRequest (s : Locals) : Step :=
  let r := getAndDelRequest s.heap s.fields "http_request"
  match r.2.1, r.2.2 with
  | some req, true =>
    match NewRequest req with
    | some request =>
      Step.ok { s with heap := r.1, event := { s.event with Request := some request } }
    | none => Step.panic r.1
  | _, _ => Step.ok { s with heap := r.1 }

/-- Lines 206-209: the four runtime diagnostics are written into the working
copy. -/
def addRuntime (env : Env) (s : Locals) : Locals :=
  let h1 := s.heap.assign s.fields "runtime.Version" (Value.str env.runtimeVersion)
  let h2 := h1.assign s.fields "runtime.NumCPU" (Value.int env.numCPU)
  let h3 := h2.assign s.fields "runtime.GOMAXPROCS" (Value.int env.gomaxprocs)
  let h4 := h3.assign s.fields "runtime.NumGoroutine" (Value.int env.numGoroutine)
  { s with heap := h4 }

/-- Lines 211-220: when `stConfig.Enable && level <= stConfig.Level`, a stack
trace goes into `event.Extra["stacktrace"]` and another one into the local
packet. -/
def attachStacktrace (o : Output) (env : Env) (s : Locals) : Locals :=
  let stConfig := o.StacktraceConfiguration
  if stConfig.Enable && decide (s.level ≤ stConfig.Level) then
    { s with
      event := { s.event with
        Extra := GoMap.set s.event.Extra "stacktrace"
          (ExtraValue.stacktrace env.sentryStacktrace) },
      packet := { s.packet with
        Interfaces := s.packet.Interfaces ++
          [env.ravenStacktrace stConfig.Skip stConfig.Context stConfig.InAppPrefixes] } }
  else
    s

/-- Line 222: `event.Extra["fields"] = fields`. -/
def storeFields (s : Locals) : Locals :=
  { s with event := { s.event with
      Extra := GoMap.set s.event.Extra "fields" (ExtraValue.fields s.fields) } }

/-- Lines 224-239: the event goes to `o.client.CaptureEvent`, whose result is
discarded; the deferred `sentry.Flush(time.Second * 2)` runs; `nil` is
returned.  On a nil client the call at line 224 panics, before the `defer`. -/
def submit (o : Output) (w : World) (s : Locals) : Result :=
  match o.client with
  | none => { outcome := Outcome.panicked, world := { w with heap := s.heap } }
  | some _ =>
    { outcome := Outcome.returned none,
      world := { heap := s.heap, captured := w.captured ++ [s.event],
                 flushes := w.flushes ++ [2000] } }

/-- Lines 163-222, in source order. -/
def fill (o : Output) (env : Env) (s : Locals) : Step :=
  match setRequest (setTransaction (setRelease (setServerName o
      (dropReserved (setSeverity s))))) with
  | Step.ok t => Step.ok (storeFields (attachStacktrace o env (addRuntime env t)))
  | Step.panic h => Step.panic h

/-- The method `Output.Write`, called with a reference to the caller's
record. -/
def Write (o : Output) (env : Env) (w : World) (callerFields : Ref) : Result :=
  -- fields = cloneFields(fields)
  let hf := cloneFields w.heap callerFields
  let h := hf.1
  let fields := hf.2
  -- level := xlogSeverityMap[fields[xlog.KeyLevel].(string)]
  match assertString (GoMap.get? (h.read fields) KeyLevel) with
  | none => { outcome := Outcome.panicked, world := { w with heap := h } }
  | some lv =>
    let level := GoMap.index (0 : XLevel) xlogSeverityMap lv
    if level < o.Level then
      { outcome := Outcome.returned none, world := { w with heap := h } }
    else
      -- packet := raven.NewPacket(fields[xlog.KeyMessage].(string))
      match assertString (GoMap.get? (h.read fields) KeyMessage) with
      | none => { outcome := Outcome.panicked, world := { w with heap := h } }
      | some msg0 =>
        let packet := NewPacket msg0
        let event := NewEvent
        -- event.Message = fields[xlog.KeyMessage].(string)
        match assertString (GoMap.get? (h.read fields) KeyMessage) with
        | none => { outcome := Outcome.panicked, world := { w with heap := h } }
        | some msg =>
          let event := { event with Message := msg }
          -- event.Timestamp = fields[xlog.KeyTime].(time.Time)
          match assertTime (GoMap.get? (h.read fields) KeyTime) with
          | none => { outcome := Outcome.panicked, world := { w with heap := h } }
          | some ts =>
            let event := { event with Timestamp := ts }
            match fill o env
              { heap := h, fields := fields, level := level, packet := packet,
                event := event } with
            | Step.ok s => submit o w s
            | Step.panic h2 => { outcome := Outcome.panicked, world := { w with heap := h2 } }

/-! ## Reading a result -/

/-- The map behind the `"fields"` entry of an event's `Extra`, read from the
heap the call left; `none` when the event has no such entry. -/
def fieldsOf (res : Result) (ev : Event) : Option Fields :=
  match GoMap.get? ev.Extra "fields" with
  | some (ExtraValue.fields r) => some (res.world.heap.read r)
  | _ => none

/-- Whether a stack trace is attached to the event. -/
def hasStacktrace (ev : Event) : Bool :=
  (GoMap.get? ev.Extra "stacktrace").isSome

/-- The level a record carries: its `level` text looked up in
`xlogSeverityMap`; `none` when the `level` key is missing or not a text. -/
def recordLevel (m : Fields) : Option XLevel :=
  (assertString (GoMap.get? m KeyLevel)).map (GoMap.index (0 : XLevel) xlogSeverityMap)

/-! ## Vocabulary of the properties -/

/-- The text stored under `key`, if the key is present with a text value. -/
def textAt (m : Fields) (key : String) : Option String :=
  assertString (GoMap.get? m key)

/-- The non-nil request stored under `key`, if there is one. -/
def requestAt (m : Fields) (key : String) : Option HttpRequest :=
  match GoMap.get? m key with
  | some (Value.request (some req)) => some req
  | _ => none

/-- Whether `sentry.NewRequest` can take what the record holds under
`http_request`: there is no non-nil request there, or the request has a URL. -/
def requestHasURL (m : Fields) : Bool :=
  match requestAt m "http_request" with
  | some req => req.URL.isSome
  | none => true

/-- The keys deleted unconditionally. -/
def reservedKeys : List String := [KeyMessage, KeyTime, KeyLevel, KeyFile]

/-- The keys `Write` may consume. -/
def optionalKeys : List String :=
  ["host", "server_name", "release", "culprit", "role", "http_request"]

/-- The keys `Write` injects. -/
def diagnosticKeys : List String :=
  ["runtime.Version", "runtime.NumCPU", "runtime.GOMAXPROCS", "runtime.NumGoroutine"]

/-- The level texts the logger knows. -/
def knownLevels : List String := ["debug", "info", "warn", "error"]

/-- The translation as the specification words it, on the level text: debug to
debug, info to info, warn to warning, error to error. -/
def specSeverity (lv : String) : SentryLevel :=
  if lv = "debug" then "debug"
  else if lv = "info" then "info"
  else if lv = "warn" then "warning"
  else if lv = "error" then "error"
  else ""

/-- The server name chosen from a record: `host`, else `server_name`, else the
cached host name. -/
def serverNameOf (o : Output) (m : Fields) : String :=
  match textAt m "host" with
  | some v => v
  | none =>
    match textAt m "server_name" with
    | some v => v
    | none => o.host

/-! ## Intermediate states and the relations carried through the steps -/

/-- The state after lines 163-177. -/
def named (o : Output) (s : Locals) : Locals :=
  setServerName o (dropReserved (setSeverity s))

/-- The state after lines 163-195. -/
def labelled (o : Output) (s : Locals) : Locals :=
  setTransaction (setRelease (named o s))

/-- What lines 196-204 leave when `sentry.NewRequest` does not panic. -/
def setRequestOk (s : Locals) : Locals :=
  match requestAt (s.heap.read s.fields) "http_request" with
  | some req =>
    { s with heap := s.heap.delete s.fields "http_request",
             event := { s.event with Request := NewRequest req } }
  | none => s

/-- The state after lines 163-204 when `sentry.NewRequest` does not panic. -/
def gathered (o : Output) (s : Locals) : Locals :=
  setRequestOk (labelled o s)

/-- The state after lines 163-222 when `sentry.NewRequest` does not panic. -/
def fillOk (o : Output) (env : Env) (s : Locals) : Locals :=
  storeFields (attachStacktrace o env (addRuntime env (gathered o s)))

/-- Lines 163-239: the outcome of `Write` once message and time are read. -/
def finish (o : Output) (env : Env) (w : World) (s : Locals) : Result :=
  match fill o env s with
  | Step.ok t => submit o w t
  | Step.panic h => { outcome := Outcome.panicked, world := { w with heap := h } }

/-- The result of lines 224-239 on a live client. -/
def handOver (w : World) (s : Locals) : Result :=
  { outcome := Outcome.returned none,
    world := { heap := s.heap, captured := w.captured ++ [s.event],
               flushes := w.flushes ++ [2000] } }

/-- The heap once `cloneFields` has run. -/
def cloned (w : World) (callerFields : Ref) : Heap :=
  w.heap ++ [cloneLoop (w.heap.read callerFields)]

/-- The locals of `Write` on reaching line 163. -/
def entry (_env : Env) (w : World) (callerFields : Ref) (level : XLevel) (msg : String)
    (ts : Time) : Locals :=
  { heap := cloned w callerFields, fields := w.heap.length, level := level,
    packet := NewPacket msg,
    event := { NewEvent with Message := msg, Timestamp := ts } }

/-- After the step from `s` to `t`, only the working copy may differ, and in it
every key keeps its value or, if listed in `ks`, is gone. -/
structure Consumes (ks : List String) (s t : Locals) : Prop where
  fields : t.fields = s.fields
  level : t.level = s.level
  length : t.heap.length = s.heap.length
  frame : ∀ r, r ≠ s.fields → t.heap.read r = s.heap.read r
  keep : ∀ k, GoMap.get? (t.heap.read s.fields) k = GoMap.get? (s.heap.read s.fields) k ∨
    (k ∈ ks ∧ GoMap.get? (t.heap.read s.fields) k = none)

/-- Two states of `Write` that differ at most in heap cells other than the
working copy and in the local packet. -/
structure Agree (s t : Locals) : Prop where
  fields : t.fields = s.fields
  level : t.level = s.level
  event : t.event = s.event
  lt : s.fields < s.heap.length
  lt' : t.fields < t.heap.length
  get : ∀ k, GoMap.get? (t.heap.read t.fields) k = GoMap.get? (s.heap.read s.fields) k

/-! ## Concrete inputs: the cases of `TestWriteBasic` and a few more -/

/-- An environment for the worked examples. -/
def sampleEnv : Env :=
  { runtimeVersion := "go1.13", numCPU := 4, gomaxprocs := 4,
    numGoroutine := 2, sentryStacktrace := { frames := ["Write"] },
    ravenStacktrace := fun _ _ _ => { frames := ["Write"] } }

/-- The instant 2017-01-01T00:00:00Z. -/
def testTime : Time := { unixNano := 1483228800000000000 }

/-- The record every case of `TestWriteBasic` writes. -/
def testRecord : Fields :=
  [(KeyMessage, Value.str "message"), (KeyTime, Value.time testTime),
   (KeyLevel, Value.str "info"), (KeyFile, Value.str "file")]

/-- The forwarder that `TestWriteBasic` builds from `stEna`, `stLv` and `tlv`. -/
def testOutput (stEna : Bool) (stLv tlv : XLevel) : Output :=
  { Timeout := 1000,
    StacktraceConfiguration :=
      { Enable := stEna, Level := stLv, Skip := 0, Context := 5, InAppPrefixes := [] },
    Level := tlv, client := some { dsn := "http://secret@localhost/id" }, host := "host" }

/-- The same forwarder with a nil client. -/
def nilClientOutput (stEna : Bool) (stLv tlv : XLevel) : Output :=
  { testOutput stEna stLv tlv with client := none }

/-- The record of the test with a request whose `URL` is nil. -/
def nilURLRecord : Fields :=
  [(KeyMessage, Value.str "message"), (KeyTime, Value.time testTime),
   (KeyLevel, Value.str "info"), (KeyFile, Value.str "file"),
   ("http_request", Value.request (some
      { Method := "GET", Host := "localhost", TLS := false, ForwardedProto := "",
        URL := none }))]

/-- A world whose heap holds one record, at reference 0. -/
def worldOf (m : Fields) : World :=
  { heap := [m], captured := [], flushes := [] }

/-- A record with optional keys and a key of the caller's own. -/
def richRecord : Fields :=
  [(KeyMessage, Value.str "message"), (KeyTime, Value.time testTime),
   (KeyLevel, Value.str "warn"), (KeyFile, Value.str "file"),
   ("host", Value.str "web-1"), ("server_name", Value.str "alt"),
   ("release", Value.str "v1"), ("culprit", Value.str "handler"),
   ("role", Value.str "api"), ("user_id", Value.int 7),
   ("http_request", Value.request (some
      { Method := "GET", Host := "example.org", TLS := false, ForwardedProto := "",
        URL := some { Path := "/orders", RawQuery := "page=2" } }))]

/-- A record whose level text the logger does not know. -/
def fatalRecord : Fields :=
  [(KeyMessage, Value.str "message"), (KeyTime, Value.time testTime),
   (KeyLevel, Value.str "fatal")]

/-- A record whose message is not a text. -/
def badMessageRecord : Fields :=
  [(KeyMessage, Value.int 1), (KeyTime, Value.time testTime), (KeyLevel, Value.str "error")]

/-! ## Lemmas on maps -/

namespace GoMap

variable {κ : Type} {α : Type} [DecidableEq κ]

theorem get?_delete (m : GoMap κ α) (k k' : κ) :
    get? (delete m k) k' = if k' = k then none else get? m k' := by
  induction m with
  | nil => simp [delete, get?]
  | cons kv rest ih =>
    obtain ⟨a, v⟩ := kv
    unfold delete at ih ⊢
    by_cases hak : a = k
    · subst hak
      simp only [List.filter, ne_eq, not_true_eq_false, decide_False, get?, ih]
      by_cases h : k' = a
      · simp [h]
      · have : ¬ a = k' := fun e => h e.symm
        simp [h, this]
    · simp only [List.filter, ne_eq, hak, not_false_eq_true, decide_True, get?, ih]
      by_cases h : a = k'
      · subst h
        simp [hak]
      · simp [h]

theorem get?_set (m : GoMap κ α) (k k' : κ) (v : α) :
    get? (set m k v) k' = if k' = k then some v else get? m k' := by
  unfold set
  by_cases h : k' = k
  · subst h
    simp [get?]
  · have : ¬ k = k' := fun e => h e.symm
    simp [get?, this, h, get?_delete]

end GoMap

theorem get?_cloneLoop (m : Fields) (k : String) :
    GoMap.get? (cloneLoop m) k = GoMap.get? m k := by
  induction m with
  | nil => rfl
  | cons kv rest ih =>
    obtain ⟨a, v⟩ := kv
    have h : cloneLoop ((a, v) :: rest) = GoMap.set (cloneLoop rest) a v := rfl
    rw [h, GoMap.get?_set, ih]
    by_cases hk : k = a
    · subst hk
      simp [GoMap.get?]
    · have : ¬ a = k := fun e => hk e.symm
      simp [GoMap.get?, hk, this]

/-! ## Lemmas on the heap -/

namespace Heap

theorem length_write (h : Heap) (r : Ref) (m : Fields) :
    (write h r m).length = h.length := by
  simp [write]

theorem read_write_same (h : Heap) (r : Ref) (m : Fields) (hr : r < h.length) :
    read (write h r m) r = m := by
  simp [read, write, List.getD, hr]

theorem read_write_ne (h : Heap) (r r' : Ref) (m : Fields) (hne : r' ≠ r) :
    read (write h r m) r' = read h r' := by
  have : r ≠ r' := fun e => hne e.symm
  simp [read, write, List.getD, List.getElem?_set_ne this]

theorem read_append_length (h : Heap) (m : Fields) :
    read (h ++ [m]) h.length = m := by
  simp [read, List.getD]

theorem read_append_lt (h : Heap) (m : Fields) (r : Ref) (hr : r < h.length) :
    read (h ++ [m]) r = read h r := by
  simp [read, List.getD, List.getElem?_append_left hr]

end Heap

/-! ## The steps of `Write`, one by one -/

theorem getAndDel_eq (h : Heap) (r : Ref) (key : String) :
    getAndDel h r key =
      match textAt (h.read r) key with
      | some s => (h.delete r key, s, true)
      | none => (h, "", false) := by
  unfold getAndDel textAt
  cases hg : GoMap.get? (h.read r) key with
  | none => simp [assertString]
  | some v => cases v <;> simp [assertString]

theorem Consumes.mono {ks ks' : List String} {s t : Locals} (h : Consumes ks s t)
    (hsub : ∀ k, k ∈ ks → k ∈ ks') : Consumes ks' s t :=
  ⟨h.fields, h.level, h.length, h.frame, fun k => (h.keep k).imp id (fun c => ⟨hsub k c.1, c.2⟩)⟩

theorem Consumes.trans {ks ks' : List String} {s t u : Locals} (h1 : Consumes ks s t)
    (h2 : Consumes ks' t u) : Consumes (ks ++ ks') s u := by
  refine ⟨h2.fields.trans h1.fields, h2.level.trans h1.level, h2.length.trans h1.length, ?_, ?_⟩
  · intro r hr
    rw [h2.frame r (by rw [h1.fields]; exact hr), h1.frame r hr]
  · intro k
    have a := h1.keep k
    have b := h2.keep k
    rw [h1.fields] at b
    rcases b with b | ⟨bk, b⟩
    · rcases a with a | ⟨ak, a⟩
      · exact Or.inl (b.trans a)
      · exact Or.inr ⟨List.mem_append_left _ ak, b.trans a⟩
    · exact Or.inr ⟨List.mem_append_right _ bk, b⟩

/-- A change of the event or the packet alone consumes nothing. -/
theorem Consumes.of_heap_eq {ks : List String} {s t : Locals} (hf : t.fields = s.fields)
    (hl : t.level = s.level) (hh : t.heap = s.heap) : Consumes ks s t :=
  ⟨hf, hl, by rw [hh], fun _ _ => by rw [hh], fun _ => Or.inl (by rw [hh])⟩

/-- Deleting one key from the working copy. -/
theorem Consumes.of_delete {ks : List String} {s t : Locals} (key : String) (hmem : key ∈ ks)
    (hf : t.fields = s.fields) (hl : t.level = s.level)
    (hh : t.heap = s.heap.delete s.fields key) (hr : s.fields < s.heap.length) :
    Consumes ks s t := by
  refine ⟨hf, hl, ?_, ?_, ?_⟩
  · rw [hh]; exact Heap.length_write _ _ _
  · intro r hne
    rw [hh]; exact Heap.read_write_ne _ _ _ _ hne
  · intro k
    rw [hh, Heap.delete, Heap.read_write_same _ _ _ hr, GoMap.get?_delete]
    by_cases hk : k = key
    · exact Or.inr ⟨hk ▸ hmem, by simp [hk]⟩
    · exact Or.inl (by simp [hk])

theorem get?_delete_heap (h : Heap) (r : Ref) (key k : String) (hr : r < h.length) :
    GoMap.get? ((h.delete r key).read r) k =
      if k = key then none else GoMap.get? (h.read r) k := by
  rw [Heap.delete, Heap.read_write_same _ _ _ hr, GoMap.get?_delete]

theorem get?_assign_heap (h : Heap) (r : Ref) (key k : String) (v : Value) (hr : r < h.length) :
    GoMap.get? ((h.assign r key v).read r) k =
      if k = key then some v else GoMap.get? (h.read r) k := by
  rw [Heap.assign, Heap.read_write_same _ _ _ hr, GoMap.get?_set]

theorem length_delete_heap (h : Heap) (r : Ref) (key : String) :
    (h.delete r key).length = h.length := Heap.length_write _ _ _

theorem length_assign_heap (h : Heap) (r : Ref) (key : String) (v : Value) :
    (h.assign r key v).length = h.length := Heap.length_write _ _ _

theorem dropReserved_get (s : Locals) (hr : s.fields < s.heap.length) (k : String) :
    GoMap.get? ((dropReserved s).heap.read s.fields) k =
      if k ∈ reservedKeys then none else GoMap.get? (s.heap.read s.fields) k := by
  simp only [dropReserved]
  rw [get?_delete_heap _ _ _ _ (by simp [length_delete_heap, hr]),
    get?_delete_heap _ _ _ _ (by simp [length_delete_heap, hr]),
    get?_delete_heap _ _ _ _ (by simp [length_delete_heap, hr]),
    get?_delete_heap _ _ _ _ hr]
  simp only [reservedKeys, List.mem_cons, List.mem_singleton, List.not_mem_nil, or_false]
  by_cases h1 : k = KeyMessage <;> by_cases h2 : k = KeyTime <;> by_cases h3 : k = KeyLevel <;>
    by_cases h4 : k = KeyFile <;> simp [h1, h2, h3, h4]

theorem dropReserved_consumes (s : Locals) (hr : s.fields < s.heap.length) :
    Consumes reservedKeys s (dropReserved s) := by
  refine ⟨rfl, rfl, ?_, ?_, ?_⟩
  · simp [dropReserved, length_delete_heap]
  · intro r hne
    simp only [dropReserved, Heap.delete]
    rw [Heap.read_write_ne _ _ _ _ hne, Heap.read_write_ne _ _ _ _ hne,
      Heap.read_write_ne _ _ _ _ hne, Heap.read_write_ne _ _ _ _ hne]
  · intro k
    rw [dropReserved_get s hr k]
    by_cases hk : k ∈ reservedKeys
    · exact Or.inr ⟨hk, by simp [hk]⟩
    · exact Or.inl (by simp [hk])

theorem setServerName_eq (o : Output) (s : Locals) :
    setServerName o s =
      match textAt (s.heap.read s.fields) "host" with
      | some v =>
        { s with heap := s.heap.delete s.fields "host", event := { s.event with ServerName := v } }
      | none =>
        match textAt (s.heap.read s.fields) "server_name" with
        | some v =>
          { s with heap := s.heap.delete s.fields "server_name",
                   event := { s.event with ServerName := v } }
        | none => { s with event := { s.event with ServerName := o.host } } := by
  unfold setServerName
  simp only [getAndDel_eq]
  cases textAt (s.heap.read s.fields) "host" with
  | some v => simp
  | none =>
    cases textAt (s.heap.read s.fields) "server_name" with
    | some v => simp
    | none => simp

theorem setServerName_consumes (o : Output) (s : Locals) (hr : s.fields < s.heap.length) :
    Consumes ["host", "server_name"] s (setServerName o s) := by
  rw [setServerName_eq]
  cases textAt (s.heap.read s.fields) "host" with
  | some v =>
    exact Consumes.of_delete "host" (by simp) rfl rfl rfl hr
  | none =>
    cases textAt (s.heap.read s.fields) "server_name" with
    | some v => exact Consumes.of_delete "server_name" (by simp) rfl rfl rfl hr
    | none => exact Consumes.of_heap_eq rfl rfl rfl

theorem setRelease_eq (s : Locals) :
    setRelease s =
      match textAt (s.heap.read s.fields) "release" with
      | some v =>
        { s with heap := s.heap.delete s.fields "release", event := { s.event with Release := v } }
      | none => s := by
  unfold setRelease
  simp only [getAndDel_eq]
  cases textAt (s.heap.read s.fields) "release" with
  | some v => simp
  | none => simp

theorem setRelease_consumes (s : Locals) (hr : s.fields < s.heap.length) :
    Consumes ["release"] s (setRelease s) := by
  rw [setRelease_eq]
  cases textAt (s.heap.read s.fields) "release" with
  | some v => exact Consumes.of_delete "release" (by simp) rfl rfl rfl hr
  | none => exact Consumes.of_heap_eq rfl rfl rfl

theorem setTransaction_eq (s : Locals) :
    setTransaction s =
      match textAt (s.heap.read s.fields) "culprit" with
      | some v =>
        { s with heap := s.heap.delete s.fields "culprit",
                 event := { s.event with Transaction := v } }
      | none =>
        match textAt (s.heap.read s.fields) "role" with
        | some v =>
          { s with heap := s.heap.delete s.fields "role",
                   event := { s.event with Transaction := v } }
        | none => s := by
  unfold setTransaction
  simp only [getAndDel_eq]
  cases textAt (s.heap.read s.fields) "culprit" with
  | some v => simp
  | none =>
    cases textAt (s.heap.read s.fields) "role" with
    | some v => simp
    | none => simp

theorem setTransaction_consumes (s : Locals) (hr : s.fields < s.heap.length) :
    Consumes ["culprit", "role"] s (setTransaction s) := by
  rw [setTransaction_eq]
  cases textAt (s.heap.read s.fields) "culprit" with
  | some v => exact Consumes.of_delete "culprit" (by simp) rfl rfl rfl hr
  | none =>
    cases textAt (s.heap.read s.fields) "role" with
    | some v => exact Consumes.of_delete "role" (by simp) rfl rfl rfl hr
    | none => exact Consumes.of_heap_eq rfl rfl rfl

theorem getAndDelRequest_eq (h : Heap) (r : Ref) (key : String) :
    getAndDelRequest h r key =
      match requestAt (h.read r) key with
      | some req => (h.delete r key, some req, true)
      | none => (h, none, false) := by
  unfold getAndDelRequest requestAt
  cases hg : GoMap.get? (h.read r) key with
  | none => simp
  | some v =>
    cases v with
    | request q => cases q <;> simp
    | _ => simp

theorem setRequest_eq (s : Locals) :
    setRequestOk s =
      match requestAt (s.heap.read s.fields) "http_request" with
      | some req =>
        { s with heap := s.heap.delete s.fields "http_request",
                 event := { s.event with Request := NewRequest req } }
      | none => s := rfl

theorem setRequest_consumes (s : Locals) (hr : s.fields < s.heap.length) :
    Consumes ["http_request"] s (setRequestOk s) := by
  rw [setRequest_eq]
  cases requestAt (s.heap.read s.fields) "http_request" with
  | some v => exact Consumes.of_delete "http_request" (by simp) rfl rfl rfl hr
  | none => exact Consumes.of_heap_eq rfl rfl rfl

theorem setRequest_step (s : Locals) :
    setRequest s =
      match requestAt (s.heap.read s.fields) "http_request" with
      | some req =>
        match NewRequest req with
        | some request =>
          Step.ok { s with heap := s.heap.delete s.fields "http_request",
                           event := { s.event with Request := some request } }
        | none => Step.panic (s.heap.delete s.fields "http_request")
      | none => Step.ok s := by
  unfold setRequest
  simp only [getAndDelRequest_eq]
  cases requestAt (s.heap.read s.fields) "http_request" with
  | some v => rfl
  | none => rfl

theorem NewRequest_eq_none (req : HttpRequest) (h : req.URL = none) : NewRequest req = none := by
  unfold NewRequest
  rw [h]

theorem NewRequest_isSome (req : HttpRequest) (h : req.URL.isSome = true) :
    ∃ request, NewRequest req = some request := by
  unfold NewRequest
  cases hu : req.URL with
  | none => rw [hu] at h; cases h
  | some u => exact ⟨_, rfl⟩

theorem setRequest_ok (s : Locals) (h : requestHasURL (s.heap.read s.fields) = true) :
    setRequest s = Step.ok (setRequestOk s) := by
  rw [setRequest_step, setRequest_eq]
  unfold requestHasURL at h
  cases hq : requestAt (s.heap.read s.fields) "http_request" with
  | none => rfl
  | some req =>
    rw [hq] at h
    obtain ⟨request, hn⟩ := NewRequest_isSome req h
    simp only [hn]

theorem setRequest_panic (s : Locals) (h : requestHasURL (s.heap.read s.fields) = false) :
    setRequest s = Step.panic (s.heap.delete s.fields "http_request") := by
  rw [setRequest_step]
  unfold requestHasURL at h
  cases hq : requestAt (s.heap.read s.fields) "http_request" with
  | none => rw [hq] at h; cases h
  | some req =>
    rw [hq] at h
    dsimp only at h
    have hu : req.URL = none := by
      cases hu : req.URL with
      | none => rfl
      | some u => rw [hu] at h; cases h
    simp only [NewRequest_eq_none req hu]

theorem Consumes.get_of_not_mem {ks : List String} {s t : Locals} (h : Consumes ks s t)
    {k : String} (hk : k ∉ ks) :
    GoMap.get? (t.heap.read s.fields) k = GoMap.get? (s.heap.read s.fields) k := by
  rcases h.keep k with e | ⟨m, _⟩
  · exact e
  · exact absurd m hk

theorem Consumes.get_none {ks : List String} {s t : Locals} (h : Consumes ks s t)
    {k : String} (hk : GoMap.get? (s.heap.read s.fields) k = none) :
    GoMap.get? (t.heap.read s.fields) k = none := by
  rcases h.keep k with e | ⟨_, e⟩
  · exact e.trans hk
  · exact e

theorem Consumes.lt {ks : List String} {s t : Locals} (h : Consumes ks s t)
    (hr : s.fields < s.heap.length) : t.fields < t.heap.length := by
  rw [h.fields, h.length]; exact hr

/-! ### What each step does to the event -/

theorem setServerName_event (o : Output) (s : Locals) :
    (setServerName o s).event =
      { s.event with ServerName := (setServerName o s).event.ServerName } := by
  rw [setServerName_eq]
  cases textAt (s.heap.read s.fields) "host" with
  | some v => rfl
  | none =>
    cases textAt (s.heap.read s.fields) "server_name" with
    | some v => rfl
    | none => rfl

theorem setRelease_event (s : Locals) :
    (setRelease s).event = { s.event with Release := (setRelease s).event.Release } := by
  rw [setRelease_eq]
  cases textAt (s.heap.read s.fields) "release" with
  | some v => rfl
  | none => rfl

theorem setTransaction_event (s : Locals) :
    (setTransaction s).event =
      { s.event with Transaction := (setTransaction s).event.Transaction } := by
  rw [setTransaction_eq]
  cases textAt (s.heap.read s.fields) "culprit" with
  | some v => rfl
  | none =>
    cases textAt (s.heap.read s.fields) "role" with
    | some v => rfl
    | none => rfl

theorem setRequest_event (s : Locals) :
    (setRequestOk s).event = { s.event with Request := (setRequestOk s).event.Request } := by
  rw [setRequest_eq]
  cases requestAt (s.heap.read s.fields) "http_request" with
  | some v => rfl
  | none => rfl

theorem attachStacktrace_event (o : Output) (env : Env) (s : Locals) :
    (attachStacktrace o env s).event =
      { s.event with Extra := (attachStacktrace o env s).event.Extra } := by
  unfold attachStacktrace
  by_cases h : (o.StacktraceConfiguration.Enable &&
      decide (s.level ≤ o.StacktraceConfiguration.Level)) = true
  · simp [h]
  · simp [h]

theorem attachStacktrace_extra (o : Output) (env : Env) (s : Locals) :
    (attachStacktrace o env s).event.Extra =
      if (o.StacktraceConfiguration.Enable &&
          decide (s.level ≤ o.StacktraceConfiguration.Level)) = true then
        GoMap.set s.event.Extra "stacktrace" (ExtraValue.stacktrace env.sentryStacktrace)
      else s.event.Extra := by
  unfold attachStacktrace
  by_cases h : (o.StacktraceConfiguration.Enable &&
      decide (s.level ≤ o.StacktraceConfiguration.Level)) = true
  · simp [h]
  · simp [h]

theorem attachStacktrace_consumes (o : Output) (env : Env) (s : Locals) :
    Consumes [] s (attachStacktrace o env s) := by
  unfold attachStacktrace
  by_cases h : (o.StacktraceConfiguration.Enable &&
      decide (s.level ≤ o.StacktraceConfiguration.Level)) = true
  · simp only [h, if_true]
    exact Consumes.of_heap_eq rfl rfl rfl
  · simp only [h]
    exact Consumes.of_heap_eq rfl rfl rfl

theorem storeFields_consumes (s : Locals) : Consumes [] s (storeFields s) :=
  Consumes.of_heap_eq rfl rfl rfl

/-! ### The runtime diagnostics -/

theorem addRuntime_fields (env : Env) (s : Locals) : (addRuntime env s).fields = s.fields := rfl

theorem addRuntime_level (env : Env) (s : Locals) : (addRuntime env s).level = s.level := rfl

theorem addRuntime_event (env : Env) (s : Locals) : (addRuntime env s).event = s.event := rfl

theorem addRuntime_frame (env : Env) (s : Locals) (r : Ref) (hne : r ≠ s.fields) :
    (addRuntime env s).heap.read r = s.heap.read r := by
  simp only [addRuntime, Heap.assign]
  rw [Heap.read_write_ne _ _ _ _ hne, Heap.read_write_ne _ _ _ _ hne,
    Heap.read_write_ne _ _ _ _ hne, Heap.read_write_ne _ _ _ _ hne]

theorem addRuntime_get (env : Env) (s : Locals) (hr : s.fields < s.heap.length) (k : String) :
    GoMap.get? ((addRuntime env s).heap.read s.fields) k =
      if k = "runtime.NumGoroutine" then some (Value.int env.numGoroutine)
      else if k = "runtime.GOMAXPROCS" then some (Value.int env.gomaxprocs)
      else if k = "runtime.NumCPU" then some (Value.int env.numCPU)
      else if k = "runtime.Version" then some (Value.str env.runtimeVersion)
      else GoMap.get? (s.heap.read s.fields) k := by
  simp only [addRuntime]
  rw [get?_assign_heap _ _ _ _ _ (by simp [length_assign_heap, hr]),
    get?_assign_heap _ _ _ _ _ (by simp [length_assign_heap, hr]),
    get?_assign_heap _ _ _ _ _ (by simp [length_assign_heap, hr]),
    get?_assign_heap _ _ _ _ _ hr]

theorem addRuntime_get_other (env : Env) (s : Locals) (hr : s.fields < s.heap.length)
    (k : String) (hk : k ∉ diagnosticKeys) :
    GoMap.get? ((addRuntime env s).heap.read s.fields) k = GoMap.get? (s.heap.read s.fields) k := by
  rw [addRuntime_get env s hr k]
  simp only [diagnosticKeys, List.mem_cons, List.mem_singleton, List.not_mem_nil, or_false,
    not_or] at hk
  simp [hk.1, hk.2.1, hk.2.2.1, hk.2.2.2]

/-! ### The steps put together -/

theorem fill_eq (o : Output) (env : Env) (s : Locals) :
    fillOk o env s = storeFields (attachStacktrace o env (addRuntime env (gathered o s))) := rfl

theorem dropped_consumes (s : Locals) (hr : s.fields < s.heap.length) :
    Consumes reservedKeys s (dropReserved (setSeverity s)) :=
  have c := dropReserved_consumes (setSeverity s) hr
  ⟨c.fields, c.level, c.length, c.frame, c.keep⟩

theorem named_consumes (o : Output) (s : Locals) (hr : s.fields < s.heap.length) :
    Consumes (reservedKeys ++ ["host", "server_name"]) s (named o s) :=
  (dropped_consumes s hr).trans
    (setServerName_consumes o _ ((dropped_consumes s hr).lt hr))

theorem labelled_consumes (o : Output) (s : Locals) (hr : s.fields < s.heap.length) :
    Consumes (reservedKeys ++ ["host", "server_name", "release", "culprit", "role"]) s
      (labelled o s) := by
  have cn := named_consumes o s hr
  have h0 := cn.lt hr
  have c1 := setRelease_consumes (named o s) h0
  have c2 := setTransaction_consumes _ (c1.lt h0)
  exact (cn.trans (c1.trans c2)).mono (by simp)

theorem labelled_requestHasURL (o : Output) (s : Locals) (hr : s.fields < s.heap.length) :
    requestHasURL ((labelled o s).heap.read (labelled o s).fields)
      = requestHasURL (s.heap.read s.fields) := by
  have c := labelled_consumes o s hr
  have e : GoMap.get? ((labelled o s).heap.read s.fields) "http_request"
      = GoMap.get? (s.heap.read s.fields) "http_request" :=
    c.get_of_not_mem (by decide)
  unfold requestHasURL requestAt
  rw [c.fields, e]

theorem fill_ok (o : Output) (env : Env) (s : Locals) (hr : s.fields < s.heap.length)
    (h : requestHasURL (s.heap.read s.fields) = true) :
    fill o env s = Step.ok (fillOk o env s) := by
  have e : setRequest (labelled o s) = Step.ok (setRequestOk (labelled o s)) :=
    setRequest_ok _ (by rw [labelled_requestHasURL o s hr]; exact h)
  show (match setRequest (labelled o s) with
    | Step.ok t => Step.ok (storeFields (attachStacktrace o env (addRuntime env t)))
    | Step.panic h => Step.panic h) = _
  rw [e]
  rfl

theorem fill_panic (o : Output) (env : Env) (s : Locals) (hr : s.fields < s.heap.length)
    (h : requestHasURL (s.heap.read s.fields) = false) :
    fill o env s = Step.panic ((labelled o s).heap.delete s.fields "http_request") := by
  have e : setRequest (labelled o s)
      = Step.panic ((labelled o s).heap.delete (labelled o s).fields "http_request") :=
    setRequest_panic _ (by rw [labelled_requestHasURL o s hr]; exact h)
  rw [(labelled_consumes o s hr).fields] at e
  show (match setRequest (labelled o s) with
    | Step.ok t => Step.ok (storeFields (attachStacktrace o env (addRuntime env t)))
    | Step.panic h => Step.panic h) = _
  rw [e]

theorem panic_heap_read (o : Output) (s : Locals) (hr : s.fields < s.heap.length) (r : Ref)
    (hne : r ≠ s.fields) :
    ((labelled o s).heap.delete s.fields "http_request").read r = s.heap.read r := by
  rw [Heap.delete, Heap.read_write_ne _ _ _ _ hne]
  exact (labelled_consumes o s hr).frame r hne

theorem named_gathered_consumes (o : Output) (s : Locals) (hr : s.fields < s.heap.length) :
    Consumes ["release", "culprit", "role", "http_request"] (named o s) (gathered o s) := by
  have h0 := (named_consumes o s hr).lt hr
  have c1 := setRelease_consumes (named o s) h0
  have c2 := setTransaction_consumes _ (c1.lt h0)
  have c3 := setRequest_consumes _ (c2.lt (c1.lt h0))
  exact (c1.trans (c2.trans c3)).mono (by simp)

theorem gathered_consumes (o : Output) (s : Locals) (hr : s.fields < s.heap.length) :
    Consumes (reservedKeys ++ optionalKeys) s (gathered o s) := by
  have c := (named_consumes o s hr).trans (named_gathered_consumes o s hr)
  exact c.mono (by simp [optionalKeys])

theorem fill_fields (o : Output) (env : Env) (s : Locals) (hr : s.fields < s.heap.length) :
    (fillOk o env s).fields = s.fields := by
  rw [fill_eq, (storeFields_consumes _).fields, (attachStacktrace_consumes _ _ _).fields,
    addRuntime_fields, (gathered_consumes o s hr).fields]

theorem fill_heap (o : Output) (env : Env) (s : Locals) :
    (fillOk o env s).heap = (addRuntime env (gathered o s)).heap := by
  rw [fill_eq]
  unfold storeFields attachStacktrace
  by_cases h : (o.StacktraceConfiguration.Enable &&
      decide ((addRuntime env (gathered o s)).level ≤ o.StacktraceConfiguration.Level)) = true
  · simp [h]
  · simp [h]

theorem fill_frame (o : Output) (env : Env) (s : Locals) (hr : s.fields < s.heap.length)
    (r : Ref) (hne : r ≠ s.fields) : (fillOk o env s).heap.read r = s.heap.read r := by
  have c := gathered_consumes o s hr
  rw [fill_heap, addRuntime_frame env _ r (by rw [c.fields]; exact hne), c.frame r hne]

theorem fill_get_diagnostic (o : Output) (env : Env) (s : Locals)
    (hr : s.fields < s.heap.length) :
    GoMap.get? ((fillOk o env s).heap.read s.fields) "runtime.Version"
        = some (Value.str env.runtimeVersion) ∧
    GoMap.get? ((fillOk o env s).heap.read s.fields) "runtime.NumCPU"
        = some (Value.int env.numCPU) ∧
    GoMap.get? ((fillOk o env s).heap.read s.fields) "runtime.GOMAXPROCS"
        = some (Value.int env.gomaxprocs) ∧
    GoMap.get? ((fillOk o env s).heap.read s.fields) "runtime.NumGoroutine"
        = some (Value.int env.numGoroutine) := by
  have c := gathered_consumes o s hr
  have g := addRuntime_get env (gathered o s) (c.lt hr)
  rw [c.fields] at g
  rw [fill_heap]
  refine ⟨?_, ?_, ?_, ?_⟩ <;> rw [g] <;> simp

theorem fill_get_of_not_diagnostic (o : Output) (env : Env) (s : Locals)
    (hr : s.fields < s.heap.length) (k : String) (hk : k ∉ diagnosticKeys) :
    GoMap.get? ((fillOk o env s).heap.read s.fields) k =
      GoMap.get? ((gathered o s).heap.read s.fields) k := by
  have c := gathered_consumes o s hr
  have g := addRuntime_get_other env (gathered o s) (c.lt hr) k hk
  rw [c.fields] at g
  rw [fill_heap, g]

theorem reserved_not_diagnostic (k : String) (hk : k ∈ reservedKeys) : k ∉ diagnosticKeys := by
  simp only [reservedKeys, KeyMessage, KeyTime, KeyLevel, KeyFile, List.mem_cons,
    List.mem_singleton, List.not_mem_nil, or_false] at hk
  rcases hk with h | h | h | h <;> subst h <;> decide

theorem fill_get_reserved (o : Output) (env : Env) (s : Locals)
    (hr : s.fields < s.heap.length) (k : String) (hk : k ∈ reservedKeys) :
    GoMap.get? ((fillOk o env s).heap.read s.fields) k = none := by
  rw [fill_get_of_not_diagnostic o env s hr k (reserved_not_diagnostic k hk)]
  have d := dropReserved_get (setSeverity s) hr k
  simp only [hk, if_true] at d
  have c1 := setServerName_consumes o _ ((dropped_consumes s hr).lt hr)
  have c2 := named_gathered_consumes o s hr
  have e1 := c1.get_none d
  have hf : (named o s).fields = s.fields := (named_consumes o s hr).fields
  have e2 := c2.get_none (by rw [hf]; exact e1)
  rw [hf] at e2
  exact e2

theorem fill_get_other (o : Output) (env : Env) (s : Locals)
    (hr : s.fields < s.heap.length) (k : String) (h1 : k ∉ reservedKeys)
    (h2 : k ∉ optionalKeys) (h3 : k ∉ diagnosticKeys) :
    GoMap.get? ((fillOk o env s).heap.read s.fields) k = GoMap.get? (s.heap.read s.fields) k := by
  rw [fill_get_of_not_diagnostic o env s hr k h3]
  exact (gathered_consumes o s hr).get_of_not_mem (by simp [h1, h2])

/-! ### The event that `fillOk` builds -/

theorem fill_message (o : Output) (env : Env) (s : Locals) :
    (fillOk o env s).event.Message = s.event.Message := by
  rw [fill_eq]
  unfold storeFields
  dsimp only
  rw [attachStacktrace_event]
  dsimp only [addRuntime_event]
  unfold gathered labelled
  rw [setRequest_event]
  dsimp only
  rw [setTransaction_event]
  dsimp only
  rw [setRelease_event]
  dsimp only
  unfold named
  rw [setServerName_event]
  rfl

theorem fill_timestamp (o : Output) (env : Env) (s : Locals) :
    (fillOk o env s).event.Timestamp = s.event.Timestamp := by
  rw [fill_eq]
  unfold storeFields
  dsimp only
  rw [attachStacktrace_event]
  dsimp only [addRuntime_event]
  unfold gathered labelled
  rw [setRequest_event]
  dsimp only
  rw [setTransaction_event]
  dsimp only
  rw [setRelease_event]
  dsimp only
  unfold named
  rw [setServerName_event]
  rfl

theorem fill_level (o : Output) (env : Env) (s : Locals) :
    (fillOk o env s).event.Level = GoMap.index "" severityMap s.level := by
  rw [fill_eq]
  unfold storeFields
  dsimp only
  rw [attachStacktrace_event]
  dsimp only [addRuntime_event]
  unfold gathered labelled
  rw [setRequest_event]
  dsimp only
  rw [setTransaction_event]
  dsimp only
  rw [setRelease_event]
  dsimp only
  unfold named
  rw [setServerName_event]
  rfl

theorem fill_logger (o : Output) (env : Env) (s : Locals) :
    (fillOk o env s).event.Logger = "xlog" := by
  rw [fill_eq]
  unfold storeFields
  dsimp only
  rw [attachStacktrace_event]
  dsimp only [addRuntime_event]
  unfold gathered labelled
  rw [setRequest_event]
  dsimp only
  rw [setTransaction_event]
  dsimp only
  rw [setRelease_event]
  dsimp only
  unfold named
  rw [setServerName_event]
  rfl

theorem fill_serverName_named (o : Output) (env : Env) (s : Locals) :
    (fillOk o env s).event.ServerName = (named o s).event.ServerName := by
  rw [fill_eq]
  unfold storeFields
  dsimp only
  rw [attachStacktrace_event]
  dsimp only [addRuntime_event]
  unfold gathered labelled
  rw [setRequest_event]
  dsimp only
  rw [setTransaction_event]
  dsimp only
  rw [setRelease_event]

theorem fill_transaction_set (o : Output) (env : Env) (s : Locals) :
    (fillOk o env s).event.Transaction
      = (setTransaction (setRelease (named o s))).event.Transaction := by
  rw [fill_eq]
  unfold storeFields
  dsimp only
  rw [attachStacktrace_event]
  dsimp only [addRuntime_event]
  unfold gathered labelled
  rw [setRequest_event]

theorem setRelease_transaction (o : Output) (s : Locals) :
    (setRelease (named o s)).event.Transaction = s.event.Transaction := by
  rw [setRelease_event]
  dsimp only
  unfold named
  rw [setServerName_event]
  rfl

theorem gathered_extra (o : Output) (s : Locals) :
    (gathered o s).event.Extra = s.event.Extra := by
  unfold gathered labelled
  rw [setRequest_event]
  dsimp only
  rw [setTransaction_event]
  dsimp only
  rw [setRelease_event]
  dsimp only
  unfold named
  rw [setServerName_event]
  rfl

theorem textAt_congr {m m' : Fields} {k : String} (h : GoMap.get? m k = GoMap.get? m' k) :
    textAt m k = textAt m' k := by
  unfold textAt; rw [h]

theorem dropped_textAt (s : Locals) (hr : s.fields < s.heap.length) (k : String)
    (hk : k ∉ reservedKeys) :
    textAt ((dropReserved (setSeverity s)).heap.read s.fields) k
      = textAt (s.heap.read s.fields) k :=
  textAt_congr ((dropped_consumes s hr).get_of_not_mem hk)

theorem fill_serverName (o : Output) (env : Env) (s : Locals) (hr : s.fields < s.heap.length) :
    (fillOk o env s).event.ServerName = serverNameOf o (s.heap.read s.fields) := by
  rw [fill_serverName_named, named, setServerName_eq]
  have e1 := dropped_textAt s hr "host" (by decide)
  have e2 := dropped_textAt s hr "server_name" (by decide)
  have hf : (dropReserved (setSeverity s)).fields = s.fields := rfl
  rw [hf, e1, e2]
  unfold serverNameOf
  cases textAt (s.heap.read s.fields) "host" with
  | some v => rfl
  | none =>
    cases textAt (s.heap.read s.fields) "server_name" with
    | some v => rfl
    | none => rfl

theorem fill_transaction (o : Output) (env : Env) (s : Locals) (hr : s.fields < s.heap.length) :
    (fillOk o env s).event.Transaction
      = match textAt (s.heap.read s.fields) "culprit" with
        | some v => v
        | none =>
          match textAt (s.heap.read s.fields) "role" with
          | some v => v
          | none => s.event.Transaction := by
  rw [fill_transaction_set, setTransaction_eq]
  have cn := named_consumes o s hr
  have cr := setRelease_consumes (named o s) (cn.lt hr)
  have c := cn.trans cr
  have e1 : textAt ((setRelease (named o s)).heap.read s.fields) "culprit"
      = textAt (s.heap.read s.fields) "culprit" :=
    textAt_congr (c.get_of_not_mem (by decide))
  have e2 : textAt ((setRelease (named o s)).heap.read s.fields) "role"
      = textAt (s.heap.read s.fields) "role" :=
    textAt_congr (c.get_of_not_mem (by decide))
  rw [c.fields, e1, e2]
  have t := setRelease_transaction o s
  cases textAt (s.heap.read s.fields) "culprit" with
  | some v => rfl
  | none =>
    cases textAt (s.heap.read s.fields) "role" with
    | some v => rfl
    | none => exact t

theorem fill_extra (o : Output) (env : Env) (s : Locals) (hr : s.fields < s.heap.length) :
    (fillOk o env s).event.Extra =
      GoMap.set
        (if (o.StacktraceConfiguration.Enable &&
            decide (s.level ≤ o.StacktraceConfiguration.Level)) = true then
          GoMap.set s.event.Extra "stacktrace" (ExtraValue.stacktrace env.sentryStacktrace)
        else s.event.Extra)
        "fields" (ExtraValue.fields s.fields) := by
  have c := gathered_consumes o s hr
  have e := gathered_extra o s
  rw [fill_eq]
  unfold storeFields
  simp only [attachStacktrace_extra, (attachStacktrace_consumes _ _ _).fields,
    addRuntime_fields, addRuntime_level, addRuntime_event, c.fields, c.level, e]

/-! ### The paths through `Write` -/

theorem entry_lt (env : Env) (w : World) (r : Ref) (level : XLevel) (msg : String) (ts : Time) :
    (entry env w r level msg ts).fields < (entry env w r level msg ts).heap.length := by
  simp [entry, cloned]

theorem entry_read (env : Env) (w : World) (r : Ref) (level : XLevel) (msg : String) (ts : Time) :
    (entry env w r level msg ts).heap.read (entry env w r level msg ts).fields
      = cloneLoop (w.heap.read r) := by
  simp only [entry, cloned]
  exact Heap.read_append_length _ _

theorem entry_get (env : Env) (w : World) (r : Ref) (level : XLevel) (msg : String) (ts : Time)
    (k : String) :
    GoMap.get? ((entry env w r level msg ts).heap.read (entry env w r level msg ts).fields) k
      = GoMap.get? (w.heap.read r) k := by
  rw [entry_read, get?_cloneLoop]

theorem entry_requestHasURL (env : Env) (w : World) (r : Ref) (level : XLevel) (msg : String)
    (ts : Time) :
    requestHasURL ((entry env w r level msg ts).heap.read (entry env w r level msg ts).fields)
      = requestHasURL (w.heap.read r) := by
  unfold requestHasURL requestAt
  rw [entry_get]

theorem Write_unfold (o : Output) (env : Env) (w : World) (r : Ref) :
    Write o env w r =
      match textAt (w.heap.read r) KeyLevel with
      | none => { outcome := Outcome.panicked, world := { w with heap := cloned w r } }
      | some lv =>
        if GoMap.index (0 : XLevel) xlogSeverityMap lv < o.Level then
          { outcome := Outcome.returned none, world := { w with heap := cloned w r } }
        else
          match textAt (w.heap.read r) KeyMessage, assertTime (GoMap.get? (w.heap.read r) KeyTime) with
          | some msg, some ts =>
            finish o env w (entry env w r (GoMap.index (0 : XLevel) xlogSeverityMap lv) msg ts)
          | _, _ => { outcome := Outcome.panicked, world := { w with heap := cloned w r } } := by
  have hk : ∀ k, GoMap.get? (Heap.read (w.heap ++ [cloneLoop (w.heap.read r)]) w.heap.length) k
      = GoMap.get? (w.heap.read r) k := by
    intro k
    rw [Heap.read_append_length, get?_cloneLoop]
  unfold Write cloneFields Heap.alloc textAt entry cloned finish
  dsimp only
  rw [hk KeyLevel, hk KeyMessage, hk KeyTime]
  cases assertString (GoMap.get? (w.heap.read r) KeyLevel) with
  | none => rfl
  | some lv =>
    dsimp only
    by_cases hlt : GoMap.index (0 : XLevel) xlogSeverityMap lv < o.Level
    · rw [if_pos hlt, if_pos hlt]
    · rw [if_neg hlt, if_neg hlt]
      cases assertString (GoMap.get? (w.heap.read r) KeyMessage) with
      | none => rfl
      | some msg =>
        cases assertTime (GoMap.get? (w.heap.read r) KeyTime) with
        | none => rfl
        | some ts => rfl

theorem submit_live (o : Output) (w : World) (s : Locals) (hcl : o.client.isSome = true) :
    submit o w s = handOver w s := by
  unfold submit
  cases hc : o.client with
  | none => rw [hc] at hcl; cases hcl
  | some c => rfl

theorem textAt_of_get {m : Fields} {k s : String} (h : GoMap.get? m k = some (Value.str s)) :
    textAt m k = some s := by
  unfold textAt; rw [h]; rfl

theorem assertTime_of_get {m : Fields} {k : String} {t : Time}
    (h : GoMap.get? m k = some (Value.time t)) :
    assertTime (GoMap.get? m k) = some t := by
  rw [h]; rfl

theorem Write_dropped (o : Output) (env : Env) (w : World) (r : Ref) (lv : String)
    (hlv : textAt (w.heap.read r) KeyLevel = some lv)
    (hlt : GoMap.index (0 : XLevel) xlogSeverityMap lv < o.Level) :
    Write o env w r =
      { outcome := Outcome.returned none, world := { w with heap := cloned w r } } := by
  rw [Write_unfold, hlv]
  simp only [hlt, if_true]

theorem finish_live (o : Output) (env : Env) (w : World) (s : Locals)
    (hr : s.fields < s.heap.length) (hcl : o.client.isSome = true)
    (hreq : requestHasURL (s.heap.read s.fields) = true) :
    finish o env w s = handOver w (fillOk o env s) := by
  unfold finish
  rw [fill_ok o env s hr hreq]
  exact submit_live o w _ hcl

theorem finish_dead (o : Output) (env : Env) (w : World) (s : Locals)
    (hr : s.fields < s.heap.length)
    (h : (o.client.isSome && requestHasURL (s.heap.read s.fields)) = false) :
    ∃ hp, finish o env w s
        = { outcome := Outcome.panicked, world := { w with heap := hp } } ∧
      ∀ r, r ≠ s.fields → hp.read r = s.heap.read r := by
  unfold finish
  cases hq : requestHasURL (s.heap.read s.fields) with
  | false =>
    rw [fill_panic o env s hr hq]
    exact ⟨_, rfl, fun r hne => panic_heap_read o s hr r hne⟩
  | true =>
    rw [hq, Bool.and_true] at h
    rw [fill_ok o env s hr hq]
    refine ⟨(fillOk o env s).heap, ?_, fun r hne => fill_frame o env s hr r hne⟩
    unfold submit
    cases hc : o.client with
    | none => rfl
    | some c => rw [hc] at h; cases h

theorem Write_forwarded (o : Output) (env : Env) (w : World) (r : Ref) (lv msg : String)
    (ts : Time) (hcl : o.client.isSome = true)
    (hreq : requestHasURL (w.heap.read r) = true)
    (hlv : textAt (w.heap.read r) KeyLevel = some lv)
    (hge : o.Level ≤ GoMap.index (0 : XLevel) xlogSeverityMap lv)
    (hmsg : textAt (w.heap.read r) KeyMessage = some msg)
    (hts : assertTime (GoMap.get? (w.heap.read r) KeyTime) = some ts) :
    Write o env w r =
      handOver w
        (fillOk o env (entry env w r (GoMap.index (0 : XLevel) xlogSeverityMap lv) msg ts)) := by
  rw [Write_unfold, hlv, hmsg, hts]
  have : ¬ GoMap.index (0 : XLevel) xlogSeverityMap lv < o.Level := not_lt.mpr hge
  simp only [this, if_false]
  exact finish_live o env w _ (entry_lt _ _ _ _ _ _) hcl
    (by rw [entry_requestHasURL]; exact hreq)

theorem Write_panics (o : Output) (env : Env) (w : World) (r : Ref)
    (h : textAt (w.heap.read r) KeyLevel = none ∨
      ∃ lv, textAt (w.heap.read r) KeyLevel = some lv ∧
        o.Level ≤ GoMap.index (0 : XLevel) xlogSeverityMap lv ∧
        (textAt (w.heap.read r) KeyMessage = none ∨
          assertTime (GoMap.get? (w.heap.read r) KeyTime) = none)) :
    Write o env w r =
      { outcome := Outcome.panicked, world := { w with heap := cloned w r } } := by
  rw [Write_unfold]
  rcases h with h | ⟨lv, hlv, hge, hbad⟩
  · rw [h]
  · rw [hlv]
    have : ¬ GoMap.index (0 : XLevel) xlogSeverityMap lv < o.Level := not_lt.mpr hge
    simp only [this, if_false]
    rcases hbad with hb | hb
    · rw [hb]
    · rw [hb]
      cases textAt (w.heap.read r) KeyMessage <;> rfl

theorem index_known (lv : String) (h : lv ∈ knownLevels) :
    GoMap.index "" severityMap (GoMap.index (0 : XLevel) xlogSeverityMap lv) = specSeverity lv := by
  simp only [knownLevels, List.mem_cons, List.mem_singleton, List.not_mem_nil, or_false] at h
  rcases h with h | h | h | h <;> subst h <;> decide

theorem index_unknown (lv : String) (h : lv ∉ knownLevels) :
    GoMap.index (0 : XLevel) xlogSeverityMap lv = LevelDebug := by
  simp only [knownLevels, List.mem_cons, List.mem_singleton, List.not_mem_nil, or_false,
    not_or] at h
  obtain ⟨h1, h2, h3, h4⟩ := h
  have e1 : ¬ "debug" = lv := fun e => h1 e.symm
  have e2 : ¬ "info" = lv := fun e => h2 e.symm
  have e3 : ¬ "warn" = lv := fun e => h3 e.symm
  have e4 : ¬ "error" = lv := fun e => h4 e.symm
  simp [GoMap.index, xlogSeverityMap, GoMap.get?, e1, e2, e3, e4, LevelDebug]

/-! ## Properties of `Write` -/

/-- C1: for every forwarder configuration and every record whose level text
resolves through `xlogSeverityMap` to a level strictly below the configured
`Level`, `Write` hands no event to the client, flushes nothing and returns
`nil`. -/
theorem Write_below_threshold_drops (o : Output) (env : Env) (w : World) (r : Ref)
    (level : XLevel) (hlv : recordLevel (w.heap.read r) = some level)
    (hlt : level < o.Level) :
    (Write o env w r).outcome = Outcome.returned none ∧
    (Write o env w r).world.captured = w.captured ∧
    (Write o env w r).world.flushes = w.flushes := by
  unfold recordLevel at hlv
  cases ht : assertString (GoMap.get? (w.heap.read r) KeyLevel) with
  | none => rw [ht] at hlv; cases hlv
  | some lv =>
    rw [ht] at hlv
    simp only [Option.map_some', Option.some.injEq] at hlv
    rw [Write_dropped o env w r lv ht (by rw [hlv]; exact hlt)]
    exact ⟨rfl, rfl, rfl⟩

/-- Witness of C1: the info record of the test under threshold error. -/
theorem Write_below_threshold_drops_witness :
    recordLevel ((worldOf testRecord).heap.read 0) = some LevelInfo ∧
    LevelInfo < (testOutput true LevelError LevelError).Level ∧
    (Write (testOutput true LevelError LevelError) sampleEnv (worldOf testRecord) 0).outcome
      = Outcome.returned none ∧
    (Write (testOutput true LevelError LevelError) sampleEnv (worldOf testRecord) 0).world.captured
      = (worldOf testRecord).captured ∧
    (Write (testOutput true LevelError LevelError) sampleEnv (worldOf testRecord) 0).world.flushes
      = (worldOf testRecord).flushes :=
  ⟨by decide, by decide,
    Write_below_threshold_drops (testOutput true LevelError LevelError) sampleEnv
      (worldOf testRecord) 0 LevelInfo (by decide) (by decide)⟩

/-- Counterexample to C2 as stated: the info record of the test under threshold
info meets every condition of the claim, and so does the same record carrying
a request whose `URL` is nil; on a forwarder whose client is nil the first
makes `Write` panic at line 224, and on a forwarder with a live client the
second makes it panic inside `sentry.NewRequest` at line 203, each time with
nothing handed over and nothing returned. -/
theorem forwarded_record_panics_counterexample :
    GoMap.get? ((worldOf testRecord).heap.read 0) KeyMessage = some (Value.str "message") ∧
    GoMap.get? ((worldOf testRecord).heap.read 0) KeyTime = some (Value.time testTime) ∧
    GoMap.get? ((worldOf testRecord).heap.read 0) KeyLevel = some (Value.str "info") ∧
    "info" ∈ knownLevels ∧
    (nilClientOutput true LevelInfo LevelInfo).Level
      ≤ GoMap.index (0 : XLevel) xlogSeverityMap "info" ∧
    (Write (nilClientOutput true LevelInfo LevelInfo) sampleEnv (worldOf testRecord) 0).outcome
      = Outcome.panicked ∧
    (Write (nilClientOutput true LevelInfo LevelInfo) sampleEnv
      (worldOf testRecord) 0).world.captured = [] ∧
    GoMap.get? ((worldOf nilURLRecord).heap.read 0) KeyMessage = some (Value.str "message") ∧
    GoMap.get? ((worldOf nilURLRecord).heap.read 0) KeyTime = some (Value.time testTime) ∧
    GoMap.get? ((worldOf nilURLRecord).heap.read 0) KeyLevel = some (Value.str "info") ∧
    (testOutput true LevelInfo LevelInfo).Level
      ≤ GoMap.index (0 : XLevel) xlogSeverityMap "info" ∧
    (Write (testOutput true LevelInfo LevelInfo) sampleEnv (worldOf nilURLRecord) 0).outcome
      = Outcome.panicked ∧
    (Write (testOutput true LevelInfo LevelInfo) sampleEnv
      (worldOf nilURLRecord) 0).world.captured = [] := by
  decide

/-- C2, as the code has it: on a forwarder whose client is not nil, for every
record with a text message, a time under the time key and a level text among
debug, info, warn, error that resolves at or above the configured `Level`, and
whose `http_request`, if it holds a non-nil request, holds one with a URL,
`Write` hands exactly one event to the client and returns `nil`; the event
carries the record's message and time, the logger name "xlog" and the severity
debug, info, warning, error respectively. -/
theorem Write_forwards_one_event (o : Output) (env : Env) (w : World) (r : Ref)
    (msg lv : String) (ts : Time)
    (hmsg : GoMap.get? (w.heap.read r) KeyMessage = some (Value.str msg))
    (hts : GoMap.get? (w.heap.read r) KeyTime = some (Value.time ts))
    (hlv : GoMap.get? (w.heap.read r) KeyLevel = some (Value.str lv))
    (hknown : lv ∈ knownLevels)
    (hge : o.Level ≤ GoMap.index (0 : XLevel) xlogSeverityMap lv)
    (hcl : o.client.isSome = true) (hreq : requestHasURL (w.heap.read r) = true) :
    (Write o env w r).outcome = Outcome.returned none ∧
    ∃ ev, (Write o env w r).world.captured = w.captured ++ [ev] ∧
      ev.Message = msg ∧ ev.Timestamp = ts ∧ ev.Logger = "xlog" ∧
      ev.Level = specSeverity lv := by
  rw [Write_forwarded o env w r lv msg ts hcl hreq (textAt_of_get hlv) hge
    (textAt_of_get hmsg) (assertTime_of_get hts)]
  refine ⟨rfl, _, rfl, ?_, ?_, ?_, ?_⟩
  · rw [fill_message]; rfl
  · rw [fill_timestamp]; rfl
  · rw [fill_logger]
  · rw [fill_level]; exact index_known lv hknown

/-- Witness of C2 as amended: the first case of `TestWriteBasic`. -/
theorem Write_forwards_one_event_witness :
    GoMap.get? ((worldOf testRecord).heap.read 0) KeyMessage = some (Value.str "message") ∧
    GoMap.get? ((worldOf testRecord).heap.read 0) KeyTime = some (Value.time testTime) ∧
    GoMap.get? ((worldOf testRecord).heap.read 0) KeyLevel = some (Value.str "info") ∧
    "info" ∈ knownLevels ∧
    (testOutput true LevelInfo LevelInfo).Level ≤ GoMap.index (0 : XLevel) xlogSeverityMap "info" ∧
    (testOutput true LevelInfo LevelInfo).client.isSome = true ∧
    requestHasURL ((worldOf testRecord).heap.read 0) = true ∧
    ((Write (testOutput true LevelInfo LevelInfo) sampleEnv (worldOf testRecord) 0).outcome
        = Outcome.returned none ∧
      ∃ ev, (Write (testOutput true LevelInfo LevelInfo) sampleEnv
            (worldOf testRecord) 0).world.captured = (worldOf testRecord).captured ++ [ev] ∧
        ev.Message = "message" ∧ ev.Timestamp = testTime ∧ ev.Logger = "xlog" ∧
        ev.Level = specSeverity "info") :=
  ⟨by decide, by decide, by decide, by decide, by decide, by decide, by decide,
    Write_forwards_one_event (testOutput true LevelInfo LevelInfo) sampleEnv
      (worldOf testRecord) 0 "message" "info" testTime (by decide) (by decide) (by decide)
      (by decide) (by decide) (by decide) (by decide)⟩

theorem fill_hasStacktrace (o : Output) (env : Env) (s : Locals) (hr : s.fields < s.heap.length)
    (hE : s.event.Extra = []) :
    hasStacktrace (fillOk o env s).event =
      (o.StacktraceConfiguration.Enable && decide (s.level ≤ o.StacktraceConfiguration.Level)) := by
  unfold hasStacktrace
  rw [fill_extra o env s hr, hE, GoMap.get?_set]
  have hne : ¬ "stacktrace" = "fields" := by decide
  by_cases h : (o.StacktraceConfiguration.Enable &&
      decide (s.level ≤ o.StacktraceConfiguration.Level)) = true
  · simp only [h, if_true, GoMap.get?_set, hne, if_false, Option.isSome_some]
  · have hf : (o.StacktraceConfiguration.Enable &&
        decide (s.level ≤ o.StacktraceConfiguration.Level)) = false := by
      simpa using h
    simp only [hf, hne, if_false, Bool.false_eq_true, GoMap.get?, Option.isSome_none]

theorem fill_fieldsRef (o : Output) (env : Env) (s : Locals) (hr : s.fields < s.heap.length) :
    GoMap.get? (fillOk o env s).event.Extra "fields" = some (ExtraValue.fields s.fields) := by
  rw [fill_extra o env s hr, GoMap.get?_set]
  simp

/-- On a forwarded record the one event handed over has a stack trace exactly
when `stConfig.Enable && level <= stConfig.Level` holds. -/
theorem Write_stacktrace (o : Output) (env : Env) (w : World) (r : Ref)
    (msg lv : String) (ts : Time)
    (hmsg : GoMap.get? (w.heap.read r) KeyMessage = some (Value.str msg))
    (hts : GoMap.get? (w.heap.read r) KeyTime = some (Value.time ts))
    (hlv : GoMap.get? (w.heap.read r) KeyLevel = some (Value.str lv))
    (hge : o.Level ≤ GoMap.index (0 : XLevel) xlogSeverityMap lv)
    (hcl : o.client.isSome = true) (hreq : requestHasURL (w.heap.read r) = true) :
    ∃ ev, (Write o env w r).world.captured = w.captured ++ [ev] ∧
      (hasStacktrace ev = true ↔
        (o.StacktraceConfiguration.Enable = true ∧
          GoMap.index (0 : XLevel) xlogSeverityMap lv ≤ o.StacktraceConfiguration.Level)) := by
  rw [Write_forwarded o env w r lv msg ts hcl hreq (textAt_of_get hlv) hge
    (textAt_of_get hmsg) (assertTime_of_get hts)]
  refine ⟨_, rfl, ?_⟩
  rw [fill_hasStacktrace o env _ (entry_lt _ _ _ _ _ _) rfl]
  simp [entry]

/-- C3, as the code has it: on every forwarded record (text message, time, text
level resolving at or above the threshold, handed to a client that is not nil,
any request under `http_request` having a URL) the one event handed over has a
stack trace if and only if capture is enabled and the record's level is less
than or equal to the configured stack-trace `Level`; in particular with capture
enabled, stack-trace `Level` error and a record at level info, a stack trace
is attached. -/
theorem stacktrace_iff_enabled_and_level_le (o : Output) (env : Env) (w : World) (r : Ref)
    (msg lv : String) (ts : Time)
    (hmsg : GoMap.get? (w.heap.read r) KeyMessage = some (Value.str msg))
    (hts : GoMap.get? (w.heap.read r) KeyTime = some (Value.time ts))
    (hlv : GoMap.get? (w.heap.read r) KeyLevel = some (Value.str lv))
    (hge : o.Level ≤ GoMap.index (0 : XLevel) xlogSeverityMap lv)
    (hcl : o.client.isSome = true) (hreq : requestHasURL (w.heap.read r) = true) :
    ∃ ev, (Write o env w r).world.captured = w.captured ++ [ev] ∧
      (hasStacktrace ev = true ↔
        (o.StacktraceConfiguration.Enable = true ∧
          GoMap.index (0 : XLevel) xlogSeverityMap lv ≤ o.StacktraceConfiguration.Level)) ∧
      (lv = "info" → o.StacktraceConfiguration.Enable = true →
        o.StacktraceConfiguration.Level = LevelError → hasStacktrace ev = true) := by
  obtain ⟨ev, hcap, hiff⟩ := Write_stacktrace o env w r msg lv ts hmsg hts hlv hge hcl hreq
  refine ⟨ev, hcap, hiff, ?_⟩
  intro hinfo hen hst
  subst hinfo
  rw [hiff, hst]
  exact ⟨hen, by decide⟩

/-- Witness of C3 as amended: the third case of `TestWriteBasic`. -/
theorem stacktrace_iff_enabled_and_level_le_witness :
    GoMap.get? ((worldOf testRecord).heap.read 0) KeyMessage = some (Value.str "message") ∧
    GoMap.get? ((worldOf testRecord).heap.read 0) KeyTime = some (Value.time testTime) ∧
    GoMap.get? ((worldOf testRecord).heap.read 0) KeyLevel = some (Value.str "info") ∧
    (testOutput true LevelError LevelInfo).Level ≤ GoMap.index (0 : XLevel) xlogSeverityMap "info" ∧
    (testOutput true LevelError LevelInfo).client.isSome = true ∧
    requestHasURL ((worldOf testRecord).heap.read 0) = true ∧
    ∃ ev, (Write (testOutput true LevelError LevelInfo) sampleEnv
          (worldOf testRecord) 0).world.captured = (worldOf testRecord).captured ++ [ev] ∧
      (hasStacktrace ev = true ↔
        ((testOutput true LevelError LevelInfo).StacktraceConfiguration.Enable = true ∧
          GoMap.index (0 : XLevel) xlogSeverityMap "info"
            ≤ (testOutput true LevelError LevelInfo).StacktraceConfiguration.Level)) ∧
      ("info" = "info" →
        (testOutput true LevelError LevelInfo).StacktraceConfiguration.Enable = true →
        (testOutput true LevelError LevelInfo).StacktraceConfiguration.Level = LevelError →
        hasStacktrace ev = true) :=
  ⟨by decide, by decide, by decide, by decide, by decide, by decide,
    stacktrace_iff_enabled_and_level_le (testOutput true LevelError LevelInfo) sampleEnv
      (worldOf testRecord) 0 "message" "info" testTime (by decide) (by decide) (by decide)
      (by decide) (by decide) (by decide)⟩

/-- Counterexample to C3 as stated: with capture enabled, stack-trace `Level`
error, threshold info and the info record of the test, the record's level is
not greater than or equal to the stack-trace `Level`, and yet the one event
handed over has a stack trace. -/
theorem stacktrace_level_ge_counterexample :
    recordLevel ((worldOf testRecord).heap.read 0) = some LevelInfo ∧
    (testOutput true LevelError LevelInfo).StacktraceConfiguration.Enable = true ∧
    ¬ ((testOutput true LevelError LevelInfo).StacktraceConfiguration.Level ≤ LevelInfo) ∧
    (Write (testOutput true LevelError LevelInfo) sampleEnv
        (worldOf testRecord) 0).outcome = Outcome.returned none ∧
    (Write (testOutput true LevelError LevelInfo) sampleEnv
        (worldOf testRecord) 0).world.captured.map hasStacktrace = [true] := by
  decide

/-- C4: on every forwarded record (text message, time, text level resolving at
or above the threshold, handed to a client that is not nil, any request under
`http_request` having a URL) the one event handed over has a stack trace
exactly when capture is enabled and the record's level is less than or equal to
the configured stack-trace `Level`; for an info record under threshold info
that means: attached with capture enabled and stack-trace `Level` info or
error, not attached with stack-trace `Level` debug, not attached with capture
disabled. -/
theorem stacktrace_attached_when_level_le (o : Output) (env : Env) (w : World) (r : Ref)
    (msg lv : String) (ts : Time)
    (hmsg : GoMap.get? (w.heap.read r) KeyMessage = some (Value.str msg))
    (hts : GoMap.get? (w.heap.read r) KeyTime = some (Value.time ts))
    (hlv : GoMap.get? (w.heap.read r) KeyLevel = some (Value.str lv))
    (hge : o.Level ≤ GoMap.index (0 : XLevel) xlogSeverityMap lv)
    (hcl : o.client.isSome = true) (hreq : requestHasURL (w.heap.read r) = true) :
    ∃ ev, (Write o env w r).world.captured = w.captured ++ [ev] ∧
      (hasStacktrace ev = true ↔
        (o.StacktraceConfiguration.Enable = true ∧
          GoMap.index (0 : XLevel) xlogSeverityMap lv ≤ o.StacktraceConfiguration.Level)) ∧
      (lv = "info" → o.Level = LevelInfo →
        (o.StacktraceConfiguration.Enable = true →
          (o.StacktraceConfiguration.Level = LevelInfo ∨
            o.StacktraceConfiguration.Level = LevelError) → hasStacktrace ev = true) ∧
        (o.StacktraceConfiguration.Enable = true →
          o.StacktraceConfiguration.Level = LevelDebug → hasStacktrace ev = false)) ∧
      (o.StacktraceConfiguration.Enable = false → hasStacktrace ev = false) := by
  obtain ⟨ev, hcap, hiff⟩ := Write_stacktrace o env w r msg lv ts hmsg hts hlv hge hcl hreq
  refine ⟨ev, hcap, hiff, ?_, ?_⟩
  · intro hinfo _
    subst hinfo
    constructor
    · intro hen hst
      rw [hiff]
      rcases hst with hst | hst <;> rw [hst] <;> exact ⟨hen, by decide⟩
    · intro _ hst
      cases hs : hasStacktrace ev with
      | false => rfl
      | true =>
        have := (hiff.mp hs).2
        rw [hst] at this
        exact absurd this (by decide)
  · intro hen
    cases hs : hasStacktrace ev with
    | false => rfl
    | true =>
      have := (hiff.mp hs).1
      rw [hen] at this
      cases this

/-! ### The `"fields"` sub-object -/

theorem fieldsOf_submit (o : Output) (env : Env) (w : World) (s : Locals)
    (hr : s.fields < s.heap.length) :
    fieldsOf (handOver w (fillOk o env s)) (fillOk o env s).event
      = some ((fillOk o env s).heap.read s.fields) := by
  unfold fieldsOf
  rw [fill_fieldsRef o env s hr]
  rfl

theorem named_host_absent (o : Output) (s : Locals) (hr : s.fields < s.heap.length)
    (v : String) (h : textAt (s.heap.read s.fields) "host" = some v) :
    GoMap.get? ((named o s).heap.read s.fields) "host" = none := by
  have e1 := dropped_textAt s hr "host" (by decide)
  have hl := (dropped_consumes s hr).lt hr
  have hf : (dropReserved (setSeverity s)).fields = s.fields := rfl
  rw [named, setServerName_eq, hf, e1, h]
  dsimp only
  rw [get?_delete_heap _ _ _ _ (hf ▸ hl)]
  simp

theorem named_server_name_absent (o : Output) (s : Locals) (hr : s.fields < s.heap.length)
    (v : String) (h0 : textAt (s.heap.read s.fields) "host" = none)
    (h : textAt (s.heap.read s.fields) "server_name" = some v) :
    GoMap.get? ((named o s).heap.read s.fields) "server_name" = none := by
  have e1 := dropped_textAt s hr "host" (by decide)
  have e2 := dropped_textAt s hr "server_name" (by decide)
  have hl := (dropped_consumes s hr).lt hr
  have hf : (dropReserved (setSeverity s)).fields = s.fields := rfl
  rw [named, setServerName_eq, hf, e1, h0, e2, h]
  dsimp only
  rw [get?_delete_heap _ _ _ _ (hf ▸ hl)]
  simp

theorem fill_absent_of_named (o : Output) (env : Env) (s : Locals)
    (hr : s.fields < s.heap.length) (k : String) (hk : k ∉ diagnosticKeys)
    (h : GoMap.get? ((named o s).heap.read s.fields) k = none) :
    GoMap.get? ((fillOk o env s).heap.read s.fields) k = none := by
  rw [fill_get_of_not_diagnostic o env s hr k hk]
  have hf : (named o s).fields = s.fields := (named_consumes o s hr).fields
  have e := (named_gathered_consumes o s hr).get_none (by rw [hf]; exact h)
  rw [hf] at e
  exact e

theorem serverNameOf_host (o : Output) (m : Fields) (v : String)
    (h : textAt m "host" = some v) : serverNameOf o m = v := by
  unfold serverNameOf; rw [h]

theorem serverNameOf_server_name (o : Output) (m : Fields) (v : String)
    (h0 : textAt m "host" = none) (h : textAt m "server_name" = some v) :
    serverNameOf o m = v := by
  unfold serverNameOf; rw [h0, h]

theorem serverNameOf_fallback (o : Output) (m : Fields)
    (h0 : textAt m "host" = none) (h : textAt m "server_name" = none) :
    serverNameOf o m = o.host := by
  unfold serverNameOf; rw [h0, h]

theorem entry_textAt (env : Env) (w : World) (r : Ref) (level : XLevel) (msg : String)
    (ts : Time) (k : String) :
    textAt ((entry env w r level msg ts).heap.read (entry env w r level msg ts).fields) k
      = textAt (w.heap.read r) k :=
  textAt_congr (entry_get env w r level msg ts k)

/-- C5: on every forwarded record (text message, time, text level resolving at
or above the threshold, handed to a client that is not nil, any request under
`http_request` having a URL) the event's server name is the text under
`host` when there is one, otherwise the text under `server_name` when there is
one, otherwise the forwarder's cached host name; the key that supplied the
value is absent from the `"fields"` sub-object of the event. -/
theorem serverName_host_then_server_name_then_cached (o : Output) (env : Env) (w : World)
    (r : Ref) (msg lv : String) (ts : Time)
    (hmsg : GoMap.get? (w.heap.read r) KeyMessage = some (Value.str msg))
    (hts : GoMap.get? (w.heap.read r) KeyTime = some (Value.time ts))
    (hlv : GoMap.get? (w.heap.read r) KeyLevel = some (Value.str lv))
    (hge : o.Level ≤ GoMap.index (0 : XLevel) xlogSeverityMap lv)
    (hcl : o.client.isSome = true) (hreq : requestHasURL (w.heap.read r) = true) :
    ∃ ev f, (Write o env w r).world.captured = w.captured ++ [ev] ∧
      fieldsOf (Write o env w r) ev = some f ∧
      (∀ v, GoMap.get? (w.heap.read r) "host" = some (Value.str v) →
        ev.ServerName = v ∧ GoMap.get? f "host" = none) ∧
      (textAt (w.heap.read r) "host" = none →
        ∀ v, GoMap.get? (w.heap.read r) "server_name" = some (Value.str v) →
          ev.ServerName = v ∧ GoMap.get? f "server_name" = none) ∧
      (textAt (w.heap.read r) "host" = none → textAt (w.heap.read r) "server_name" = none →
        ev.ServerName = o.host) := by
  rw [Write_forwarded o env w r lv msg ts hcl hreq (textAt_of_get hlv) hge
    (textAt_of_get hmsg) (assertTime_of_get hts)]
  have hr := entry_lt env w r (GoMap.index (0 : XLevel) xlogSeverityMap lv) msg ts
  have hn := fill_serverName o env _ hr
  have th := entry_textAt env w r (GoMap.index (0 : XLevel) xlogSeverityMap lv) msg ts "host"
  have ts' := entry_textAt env w r (GoMap.index (0 : XLevel) xlogSeverityMap lv) msg ts
    "server_name"
  refine ⟨_, _, rfl, fieldsOf_submit o env w _ hr, ?_, ?_, ?_⟩
  · intro v hv
    have hv' := th.trans (textAt_of_get hv)
    exact ⟨hn.trans (serverNameOf_host o _ v hv'),
      fill_absent_of_named o env _ hr "host" (by decide) (named_host_absent o _ hr v hv')⟩
  · intro h0 v hv
    have h0' := th.trans h0
    have hv' := ts'.trans (textAt_of_get hv)
    exact ⟨hn.trans (serverNameOf_server_name o _ v h0' hv'),
      fill_absent_of_named o env _ hr "server_name" (by decide)
        (named_server_name_absent o _ hr v h0' hv')⟩
  · intro h0 h1
    exact hn.trans (serverNameOf_fallback o _ (th.trans h0) (ts'.trans h1))

/-- C6: on every forwarded record (text message, time, text level resolving at
or above the threshold, handed to a client that is not nil, any request under
`http_request` having a URL) with a text under `culprit` the event's
transaction label is that text, also when `role` holds a text as well; with no
text under `culprit` and a text under `role` it is the `role` text; with a
text under neither it is left empty. -/
theorem transaction_culprit_then_role (o : Output) (env : Env) (w : World)
    (r : Ref) (msg lv : String) (ts : Time)
    (hmsg : GoMap.get? (w.heap.read r) KeyMessage = some (Value.str msg))
    (hts : GoMap.get? (w.heap.read r) KeyTime = some (Value.time ts))
    (hlv : GoMap.get? (w.heap.read r) KeyLevel = some (Value.str lv))
    (hge : o.Level ≤ GoMap.index (0 : XLevel) xlogSeverityMap lv)
    (hcl : o.client.isSome = true) (hreq : requestHasURL (w.heap.read r) = true) :
    ∃ ev, (Write o env w r).world.captured = w.captured ++ [ev] ∧
      (∀ c ro, GoMap.get? (w.heap.read r) "culprit" = some (Value.str c) →
        GoMap.get? (w.heap.read r) "role" = some (Value.str ro) → ev.Transaction = c) ∧
      (∀ c, GoMap.get? (w.heap.read r) "culprit" = some (Value.str c) → ev.Transaction = c) ∧
      (textAt (w.heap.read r) "culprit" = none →
        ∀ ro, GoMap.get? (w.heap.read r) "role" = some (Value.str ro) → ev.Transaction = ro) ∧
      (textAt (w.heap.read r) "culprit" = none → textAt (w.heap.read r) "role" = none →
        ev.Transaction = "") := by
  rw [Write_forwarded o env w r lv msg ts hcl hreq (textAt_of_get hlv) hge
    (textAt_of_get hmsg) (assertTime_of_get hts)]
  have hr := entry_lt env w r (GoMap.index (0 : XLevel) xlogSeverityMap lv) msg ts
  have hn := fill_transaction o env _ hr
  rw [entry_textAt, entry_textAt] at hn
  have key : ∀ c, GoMap.get? (w.heap.read r) "culprit" = some (Value.str c) →
      (fillOk o env (entry env w r (GoMap.index (0 : XLevel) xlogSeverityMap lv) msg
        ts)).event.Transaction = c := by
    intro c hc
    rw [hn, textAt_of_get hc]
  refine ⟨_, rfl, fun c _ hc _ => key c hc, key, ?_, ?_⟩
  · intro h0 ro hro
    rw [hn, h0, textAt_of_get hro]
  · intro h0 h1
    rw [hn, h0, h1]
    rfl

/-! ### Two runs on working copies that hold the same entries -/

theorem Agree.textAt_eq {s t : Locals} (a : Agree s t) (k : String) :
    textAt (t.heap.read t.fields) k = textAt (s.heap.read s.fields) k :=
  textAt_congr (a.get k)

theorem Agree.requestAt_eq {s t : Locals} (a : Agree s t) (k : String) :
    requestAt (t.heap.read t.fields) k = requestAt (s.heap.read s.fields) k := by
  unfold XlogSentry.requestAt; rw [a.get k]

/-- Both runs delete the same key. -/
theorem Agree.both_delete {s t s2 t2 : Locals} (a : Agree s t) (key : String)
    (hf : s2.fields = s.fields) (hf' : t2.fields = t.fields)
    (hl : t2.level = s2.level) (he : t2.event = s2.event)
    (hh : s2.heap = s.heap.delete s.fields key) (hh' : t2.heap = t.heap.delete t.fields key) :
    Agree s2 t2 := by
  refine ⟨by rw [hf, hf', a.fields], hl, he, ?_, ?_, ?_⟩
  · rw [hf, hh, length_delete_heap]; exact a.lt
  · rw [hf', hh', length_delete_heap]; exact a.lt'
  · intro k
    rw [hf, hf', hh, hh', get?_delete_heap _ _ _ _ a.lt, get?_delete_heap _ _ _ _ a.lt', a.get k]

/-- Both runs assign the same value to the same key. -/
theorem Agree.both_assign {s t s2 t2 : Locals} (a : Agree s t) (key : String) (v : Value)
    (hf : s2.fields = s.fields) (hf' : t2.fields = t.fields)
    (hl : t2.level = s2.level) (he : t2.event = s2.event)
    (hh : s2.heap = s.heap.assign s.fields key v)
    (hh' : t2.heap = t.heap.assign t.fields key v) :
    Agree s2 t2 := by
  refine ⟨by rw [hf, hf', a.fields], hl, he, ?_, ?_, ?_⟩
  · rw [hf, hh, length_assign_heap]; exact a.lt
  · rw [hf', hh', length_assign_heap]; exact a.lt'
  · intro k
    rw [hf, hf', hh, hh', get?_assign_heap _ _ _ _ _ a.lt, get?_assign_heap _ _ _ _ _ a.lt',
      a.get k]

/-- Both runs leave the heap alone. -/
theorem Agree.both_keep {s t s2 t2 : Locals} (a : Agree s t)
    (hf : s2.fields = s.fields) (hf' : t2.fields = t.fields)
    (hl : t2.level = s2.level) (he : t2.event = s2.event)
    (hh : s2.heap = s.heap) (hh' : t2.heap = t.heap) :
    Agree s2 t2 := by
  refine ⟨by rw [hf, hf', a.fields], hl, he, ?_, ?_, ?_⟩
  · rw [hf, hh]; exact a.lt
  · rw [hf', hh']; exact a.lt'
  · intro k
    rw [hf, hf', hh, hh', a.get k]

theorem dropped_agree (s t : Locals) (hf : t.fields = s.fields) (hl : t.level = s.level)
    (he : t.event = s.event) (hlt : s.fields < s.heap.length) (hlt' : t.fields < t.heap.length)
    (hg : ∀ k, k ∉ reservedKeys →
      GoMap.get? (t.heap.read t.fields) k = GoMap.get? (s.heap.read s.fields) k) :
    Agree (dropReserved (setSeverity s)) (dropReserved (setSeverity t)) := by
  refine ⟨hf, hl, ?_, ?_, ?_, ?_⟩
  · show (setSeverity t).event = (setSeverity s).event
    unfold setSeverity
    rw [he, hl]
  · exact (dropped_consumes s hlt).lt hlt
  · exact (dropped_consumes t hlt').lt hlt'
  · intro k
    have e1 := dropReserved_get (setSeverity s) hlt k
    have e2 := dropReserved_get (setSeverity t) hlt' k
    have f1 : (dropReserved (setSeverity s)).fields = (setSeverity s).fields := rfl
    have f2 : (dropReserved (setSeverity t)).fields = (setSeverity t).fields := rfl
    rw [f1, f2, e1, e2]
    by_cases hk : k ∈ reservedKeys
    · simp [hk]
    · simp only [hk, if_false]
      exact hg k hk

theorem setServerName_agree (o : Output) {s t : Locals} (a : Agree s t) :
    Agree (setServerName o s) (setServerName o t) := by
  rw [setServerName_eq o s, setServerName_eq o t, a.textAt_eq "host", a.textAt_eq "server_name"]
  cases textAt (s.heap.read s.fields) "host" with
  | some v => exact a.both_delete "host" rfl rfl a.level (by simp [a.event]) rfl rfl
  | none =>
    cases textAt (s.heap.read s.fields) "server_name" with
    | some v => exact a.both_delete "server_name" rfl rfl a.level (by simp [a.event]) rfl rfl
    | none => exact a.both_keep rfl rfl a.level (by simp [a.event]) rfl rfl

theorem setRelease_agree {s t : Locals} (a : Agree s t) :
    Agree (setRelease s) (setRelease t) := by
  rw [setRelease_eq s, setRelease_eq t, a.textAt_eq "release"]
  cases textAt (s.heap.read s.fields) "release" with
  | some v => exact a.both_delete "release" rfl rfl a.level (by simp [a.event]) rfl rfl
  | none => exact a

theorem setTransaction_agree {s t : Locals} (a : Agree s t) :
    Agree (setTransaction s) (setTransaction t) := by
  rw [setTransaction_eq s, setTransaction_eq t, a.textAt_eq "culprit", a.textAt_eq "role"]
  cases textAt (s.heap.read s.fields) "culprit" with
  | some v => exact a.both_delete "culprit" rfl rfl a.level (by simp [a.event]) rfl rfl
  | none =>
    cases textAt (s.heap.read s.fields) "role" with
    | some v => exact a.both_delete "role" rfl rfl a.level (by simp [a.event]) rfl rfl
    | none => exact a

theorem setRequest_agree {s t : Locals} (a : Agree s t) :
    Agree (setRequestOk s) (setRequestOk t) := by
  rw [setRequest_eq s, setRequest_eq t, a.requestAt_eq "http_request"]
  cases requestAt (s.heap.read s.fields) "http_request" with
  | some v => exact a.both_delete "http_request" rfl rfl a.level (by simp [a.event]) rfl rfl
  | none => exact a

theorem assign_agree {s t : Locals} (a : Agree s t) (key : String) (v : Value) :
    Agree { s with heap := s.heap.assign s.fields key v }
      { t with heap := t.heap.assign t.fields key v } :=
  a.both_assign key v rfl rfl a.level a.event rfl rfl

theorem addRuntime_agree (env : Env) {s t : Locals} (a : Agree s t) :
    Agree (addRuntime env s) (addRuntime env t) :=
  assign_agree (assign_agree (assign_agree (assign_agree a "runtime.Version"
    (Value.str env.runtimeVersion)) "runtime.NumCPU" (Value.int env.numCPU))
    "runtime.GOMAXPROCS" (Value.int env.gomaxprocs)) "runtime.NumGoroutine"
    (Value.int env.numGoroutine)

theorem attachStacktrace_agree (o : Output) (env : Env) {s t : Locals} (a : Agree s t) :
    Agree (attachStacktrace o env s) (attachStacktrace o env t) := by
  unfold attachStacktrace
  have hc : (o.StacktraceConfiguration.Enable &&
      decide (t.level ≤ o.StacktraceConfiguration.Level)) =
      (o.StacktraceConfiguration.Enable &&
        decide (s.level ≤ o.StacktraceConfiguration.Level)) := by
    rw [a.level]
  by_cases h : (o.StacktraceConfiguration.Enable &&
      decide (s.level ≤ o.StacktraceConfiguration.Level)) = true
  · have h' := hc.trans h
    simp only [h, h', if_true]
    exact a.both_keep rfl rfl a.level (by simp [a.event]) rfl rfl
  · have h' : ¬ (o.StacktraceConfiguration.Enable &&
        decide (t.level ≤ o.StacktraceConfiguration.Level)) = true := by
      rw [hc]; exact h
    simp only [h, h']
    exact a

theorem storeFields_agree {s t : Locals} (a : Agree s t) :
    Agree (storeFields s) (storeFields t) := by
  unfold storeFields
  exact a.both_keep rfl rfl a.level (by simp [a.event, a.fields]) rfl rfl

theorem fill_agree (o : Output) (env : Env) (s t : Locals) (hf : t.fields = s.fields)
    (hl : t.level = s.level) (he : t.event = s.event) (hlt : s.fields < s.heap.length)
    (hlt' : t.fields < t.heap.length)
    (hg : ∀ k, k ∉ reservedKeys →
      GoMap.get? (t.heap.read t.fields) k = GoMap.get? (s.heap.read s.fields) k) :
    Agree (fillOk o env s) (fillOk o env t) :=
  storeFields_agree (attachStacktrace_agree o env (addRuntime_agree env (setRequest_agree
    (setTransaction_agree (setRelease_agree (setServerName_agree o
      (dropped_agree s t hf hl he hlt hlt' hg)))))))

/-- Two records that differ only in a level text, the two texts resolving to
the same level, are written alike: same outcome, same events handed over, same
flushes, and the same entries in the `"fields"` sub-object. -/
theorem Write_same_level (o : Output) (env : Env) (w w' : World) (r : Ref) (lv lv' : String)
    (hlen : w'.heap.length = w.heap.length) (hcap : w'.captured = w.captured)
    (hfl : w'.flushes = w.flushes)
    (hlv : textAt (w.heap.read r) KeyLevel = some lv)
    (hlv' : textAt (w'.heap.read r) KeyLevel = some lv')
    (hidx : GoMap.index (0 : XLevel) xlogSeverityMap lv'
      = GoMap.index (0 : XLevel) xlogSeverityMap lv)
    (hg : ∀ k, k ≠ KeyLevel →
      GoMap.get? (w'.heap.read r) k = GoMap.get? (w.heap.read r) k) :
    (Write o env w' r).outcome = (Write o env w r).outcome ∧
    (Write o env w' r).world.captured = (Write o env w r).world.captured ∧
    (Write o env w' r).world.flushes = (Write o env w r).world.flushes ∧
    (∀ ev, (Write o env w r).world.captured = w.captured ++ [ev] →
      ∃ f f', fieldsOf (Write o env w r) ev = some f ∧
        fieldsOf (Write o env w' r) ev = some f' ∧
        ∀ k, GoMap.get? f' k = GoMap.get? f k) := by
  have hm : textAt (w'.heap.read r) KeyMessage = textAt (w.heap.read r) KeyMessage :=
    textAt_congr (hg KeyMessage (by decide))
  have ht : GoMap.get? (w'.heap.read r) KeyTime = GoMap.get? (w.heap.read r) KeyTime :=
    hg KeyTime (by decide)
  rw [Write_unfold o env w r, Write_unfold o env w' r, hlv, hlv']
  dsimp only
  rw [hidx, hm, ht]
  by_cases hlt : GoMap.index (0 : XLevel) xlogSeverityMap lv < o.Level
  · rw [if_pos hlt, if_pos hlt]
    refine ⟨rfl, hcap, hfl, ?_⟩
    intro ev hev
    have := congrArg List.length hev
    simp at this
  · rw [if_neg hlt, if_neg hlt]
    cases hmsg : textAt (w.heap.read r) KeyMessage with
    | none =>
      refine ⟨rfl, hcap, hfl, ?_⟩
      intro ev hev
      have := congrArg List.length hev
      simp at this
    | some msg =>
      cases hts : assertTime (GoMap.get? (w.heap.read r) KeyTime) with
      | none =>
        refine ⟨rfl, hcap, hfl, ?_⟩
        intro ev hev
        have := congrArg List.length hev
        simp at this
      | some ts =>
        dsimp only
        have hs := entry_lt env w r (GoMap.index (0 : XLevel) xlogSeverityMap lv) msg ts
        have ht' := entry_lt env w' r (GoMap.index (0 : XLevel) xlogSeverityMap lv) msg ts
        have hq := entry_requestHasURL env w r (GoMap.index (0 : XLevel) xlogSeverityMap lv)
          msg ts
        have hq' := entry_requestHasURL env w' r (GoMap.index (0 : XLevel) xlogSeverityMap lv)
          msg ts
        have hqq : requestHasURL (w'.heap.read r) = requestHasURL (w.heap.read r) := by
          unfold requestHasURL requestAt
          rw [hg "http_request" (by decide)]
        rw [hqq] at hq'
        cases hc : (o.client.isSome && requestHasURL (w.heap.read r)) with
        | false =>
          obtain ⟨hp, e, _⟩ := finish_dead o env w _ hs (by rw [hq]; exact hc)
          obtain ⟨hp', e', _⟩ := finish_dead o env w' _ ht' (by rw [hq']; exact hc)
          rw [e, e']
          refine ⟨rfl, hcap, hfl, ?_⟩
          intro ev hev
          have := congrArg List.length hev
          simp at this
        | true =>
          rw [Bool.and_eq_true] at hc
          rw [finish_live o env w _ hs hc.1 (by rw [hq]; exact hc.2),
            finish_live o env w' _ ht' hc.1 (by rw [hq']; exact hc.2)]
          have a := fill_agree o env
            (entry env w r (GoMap.index (0 : XLevel) xlogSeverityMap lv) msg ts)
            (entry env w' r (GoMap.index (0 : XLevel) xlogSeverityMap lv) msg ts)
            hlen rfl rfl hs ht'
            (by
              intro k hk
              rw [entry_get, entry_get]
              exact hg k (fun e => hk (by rw [e]; decide)))
          have hf := fill_fields o env _ hs
          have hf' := fill_fields o env _ ht'
          refine ⟨rfl, ?_, ?_, ?_⟩
          · show w'.captured ++ [_] = w.captured ++ [_]
            rw [hcap, a.event]
          · show w'.flushes ++ [2000] = w.flushes ++ [2000]
            rw [hfl]
          · intro ev hev
            have he : ev = (fillOk o env
                (entry env w r (GoMap.index (0 : XLevel) xlogSeverityMap lv) msg ts)).event := by
              have h2 : w.captured ++ [(fillOk o env (entry env w r
                  (GoMap.index (0 : XLevel) xlogSeverityMap lv) msg ts)).event]
                  = w.captured ++ [ev] := hev
              have h3 := List.append_cancel_left h2
              simp only [List.cons.injEq, and_true] at h3
              exact h3.symm
            subst he
            refine ⟨_, (fillOk o env (entry env w' r
              (GoMap.index (0 : XLevel) xlogSeverityMap lv) msg ts)).heap.read
              (entry env w' r (GoMap.index (0 : XLevel) xlogSeverityMap lv) msg ts).fields,
              fieldsOf_submit o env w _ hs, ?_, ?_⟩
            · rw [← a.event]
              exact fieldsOf_submit o env w' _ ht'
            · intro k
              have g := a.get k
              rw [hf, hf'] at g
              exact g

/-- C7: on every forwarded record (text message, time, text level resolving at
or above the threshold, handed to a client that is not nil, any request under
`http_request` having a URL) the `"fields"` sub-object of the event holds
none of the four reserved keys (message, time, level, file), holds the four
diagnostic keys `runtime.Version`, `runtime.NumCPU`, `runtime.GOMAXPROCS` and
`runtime.NumGoroutine` with the values the runtime reports, and holds every
other key of the caller's record, that is every key that is neither reserved
nor diagnostic, the optional keys host, server_name, release, culprit, role,
http_request apart, with the value the caller gave it. -/
theorem fields_subobject_contents (o : Output) (env : Env) (w : World)
    (r : Ref) (msg lv : String) (ts : Time)
    (hmsg : GoMap.get? (w.heap.read r) KeyMessage = some (Value.str msg))
    (hts : GoMap.get? (w.heap.read r) KeyTime = some (Value.time ts))
    (hlv : GoMap.get? (w.heap.read r) KeyLevel = some (Value.str lv))
    (hge : o.Level ≤ GoMap.index (0 : XLevel) xlogSeverityMap lv)
    (hcl : o.client.isSome = true) (hreq : requestHasURL (w.heap.read r) = true) :
    ∃ ev f, (Write o env w r).world.captured = w.captured ++ [ev] ∧
      fieldsOf (Write o env w r) ev = some f ∧
      (∀ k, k ∈ reservedKeys → GoMap.get? f k = none) ∧
      (GoMap.get? f "runtime.Version" = some (Value.str env.runtimeVersion) ∧
        GoMap.get? f "runtime.NumCPU" = some (Value.int env.numCPU) ∧
        GoMap.get? f "runtime.GOMAXPROCS" = some (Value.int env.gomaxprocs) ∧
        GoMap.get? f "runtime.NumGoroutine" = some (Value.int env.numGoroutine)) ∧
      (∀ k, k ∉ reservedKeys → k ∉ diagnosticKeys → k ∉ optionalKeys →
        GoMap.get? f k = GoMap.get? (w.heap.read r) k) := by
  rw [Write_forwarded o env w r lv msg ts hcl hreq (textAt_of_get hlv) hge
    (textAt_of_get hmsg) (assertTime_of_get hts)]
  have hr := entry_lt env w r (GoMap.index (0 : XLevel) xlogSeverityMap lv) msg ts
  refine ⟨_, _, rfl, fieldsOf_submit o env w _ hr, ?_, ?_, ?_⟩
  · intro k hk
    exact fill_get_reserved o env _ hr k hk
  · exact fill_get_diagnostic o env _ hr
  · intro k h1 h3 h2
    rw [fill_get_other o env _ hr k h1 h2 h3]
    exact entry_get env w r _ msg ts k

theorem Write_heap_read (o : Output) (env : Env) (w : World) (r r' : Ref)
    (hr' : r' < w.heap.length) :
    (Write o env w r).world.heap.read r' = w.heap.read r' := by
  have hc : (cloned w r).read r' = w.heap.read r' := Heap.read_append_lt _ _ _ hr'
  rw [Write_unfold]
  cases textAt (w.heap.read r) KeyLevel with
  | none => exact hc
  | some lv =>
    dsimp only
    by_cases hlt : GoMap.index (0 : XLevel) xlogSeverityMap lv < o.Level
    · rw [if_pos hlt]; exact hc
    · rw [if_neg hlt]
      cases textAt (w.heap.read r) KeyMessage with
      | none => exact hc
      | some msg =>
        cases assertTime (GoMap.get? (w.heap.read r) KeyTime) with
        | none => exact hc
        | some ts =>
          dsimp only
          have hr := entry_lt env w r (GoMap.index (0 : XLevel) xlogSeverityMap lv) msg ts
          have hne : r' ≠ (entry env w r (GoMap.index (0 : XLevel) xlogSeverityMap lv) msg
              ts).fields := Nat.ne_of_lt hr'
          have he : (entry env w r (GoMap.index (0 : XLevel) xlogSeverityMap lv) msg
              ts).heap.read r' = w.heap.read r' := hc
          cases hq : (o.client.isSome && requestHasURL ((entry env w r
              (GoMap.index (0 : XLevel) xlogSeverityMap lv) msg ts).heap.read (entry env w r
              (GoMap.index (0 : XLevel) xlogSeverityMap lv) msg ts).fields)) with
          | false =>
            obtain ⟨hp, e, hframe⟩ := finish_dead o env w _ hr hq
            rw [e]
            exact (hframe r' hne).trans he
          | true =>
            rw [Bool.and_eq_true] at hq
            rw [finish_live o env w _ hr hq.1 hq.2]
            exact (fill_frame o env _ hr r' hne).trans he

/-- C8: the caller's record is unchanged by `Write`, however the call ends: the
map behind the caller's reference is the same map afterwards, so every key,
the reserved keys message, time, level and file among them, has the value it
had before. -/
theorem Write_leaves_caller_record (o : Output) (env : Env) (w : World) (r : Ref)
    (hr : r < w.heap.length) :
    (Write o env w r).world.heap.read r = w.heap.read r ∧
    (∀ k, GoMap.get? ((Write o env w r).world.heap.read r) k = GoMap.get? (w.heap.read r) k) ∧
    (∀ k, k ∈ reservedKeys →
      (GoMap.get? (w.heap.read r) k).isSome = true →
      (GoMap.get? ((Write o env w r).world.heap.read r) k).isSome = true) := by
  have h := Write_heap_read o env w r r hr
  refine ⟨h, fun k => by rw [h], fun k _ hk => by rw [h]; exact hk⟩

/-- C9: for every record whose level is a text other than "debug", "info",
"warn", "error", `Write` does not fail on the level: the lookup yields the
level of a debug record; the record is dropped, with `nil` returned, when the
configured `Level` is above debug; otherwise, given a text message, a time, a
client that is not nil and no request without a URL, one event of severity
debug is handed over and `nil` is returned; and the call
goes exactly as on the same record with its level replaced by "debug": same
outcome, same events handed over, same flushes, same entries in the `"fields"`
sub-object. -/
theorem unknown_level_is_debug (o : Output) (env : Env) (w : World) (r : Ref) (lv : String)
    (hlv : GoMap.get? (w.heap.read r) KeyLevel = some (Value.str lv))
    (hunknown : lv ∉ knownLevels) :
    recordLevel (w.heap.read r) = some LevelDebug ∧
    GoMap.index (0 : XLevel) xlogSeverityMap lv = GoMap.index (0 : XLevel) xlogSeverityMap "debug" ∧
    (LevelDebug < o.Level →
      (Write o env w r).outcome = Outcome.returned none ∧
      (Write o env w r).world.captured = w.captured) ∧
    (o.Level ≤ LevelDebug → o.client.isSome = true →
      requestHasURL (w.heap.read r) = true →
      ∀ msg ts, GoMap.get? (w.heap.read r) KeyMessage = some (Value.str msg) →
        GoMap.get? (w.heap.read r) KeyTime = some (Value.time ts) →
        (Write o env w r).outcome = Outcome.returned none ∧
        ∃ ev, (Write o env w r).world.captured = w.captured ++ [ev] ∧
          ev.Level = SentryLevelDebug ∧ ev.Message = msg ∧ ev.Timestamp = ts) ∧
    (∀ w' : World, w'.heap.length = w.heap.length → w'.captured = w.captured →
      w'.flushes = w.flushes →
      GoMap.get? (w'.heap.read r) KeyLevel = some (Value.str "debug") →
      (∀ k, k ≠ KeyLevel → GoMap.get? (w'.heap.read r) k = GoMap.get? (w.heap.read r) k) →
      (Write o env w' r).outcome = (Write o env w r).outcome ∧
      (Write o env w' r).world.captured = (Write o env w r).world.captured ∧
      (Write o env w' r).world.flushes = (Write o env w r).world.flushes ∧
      (∀ ev, (Write o env w r).world.captured = w.captured ++ [ev] →
        ∃ f f', fieldsOf (Write o env w r) ev = some f ∧
          fieldsOf (Write o env w' r) ev = some f' ∧
          ∀ k, GoMap.get? f' k = GoMap.get? f k)) := by
  have hi := index_unknown lv hunknown
  refine ⟨?_, ?_, ?_, ?_, ?_⟩
  · unfold recordLevel
    rw [hlv]
    simp only [assertString, Option.map_some', hi]
  · rw [hi]; decide
  · intro hlt
    rw [Write_dropped o env w r lv (textAt_of_get hlv) (by rw [hi]; exact hlt)]
    exact ⟨rfl, rfl⟩
  · intro hle hcl hreq msg ts hmsg hts
    rw [Write_forwarded o env w r lv msg ts hcl hreq (textAt_of_get hlv)
      (by rw [hi]; exact hle) (textAt_of_get hmsg) (assertTime_of_get hts)]
    refine ⟨rfl, _, rfl, ?_, ?_, ?_⟩
    · rw [fill_level]
      simp only [entry, hi]
      decide
    · rw [fill_message]; rfl
    · rw [fill_timestamp]; rfl
  · intro w' hlen hcap hfl hlv' hg
    exact Write_same_level o env w w' r lv "debug" hlen hcap hfl (textAt_of_get hlv)
      (textAt_of_get hlv') (by rw [hi]; decide) hg

/-- Counterexample to C10 as stated: a record that has a level text but neither
message nor time is dropped under threshold error; `Write` returns `nil`. -/
theorem malformed_below_threshold_counterexample :
    GoMap.get? ((worldOf [(KeyLevel, Value.str "info")]).heap.read 0) KeyMessage = none ∧
    GoMap.get? ((worldOf [(KeyLevel, Value.str "info")]).heap.read 0) KeyTime = none ∧
    (Write (testOutput false LevelError LevelError) sampleEnv
      (worldOf [(KeyLevel, Value.str "info")]) 0).outcome = Outcome.returned none := by
  decide

/-- C10, as the code has it: `Write` panics, with nothing handed to the client,
on every record whose level is missing or not a text, under every
configuration, and on every record whose level text resolves at or above the
configured `Level` while its message is missing or not a text or its time is
missing or not a time. -/
theorem malformed_record_panics (o : Output) (env : Env) (w : World) (r : Ref)
    (h : textAt (w.heap.read r) KeyLevel = none ∨
      ∃ lv, GoMap.get? (w.heap.read r) KeyLevel = some (Value.str lv) ∧
        o.Level ≤ GoMap.index (0 : XLevel) xlogSeverityMap lv ∧
        (textAt (w.heap.read r) KeyMessage = none ∨
          assertTime (GoMap.get? (w.heap.read r) KeyTime) = none)) :
    (Write o env w r).outcome = Outcome.panicked ∧
    (Write o env w r).world.captured = w.captured := by
  have h' : textAt (w.heap.read r) KeyLevel = none ∨
      ∃ lv, textAt (w.heap.read r) KeyLevel = some lv ∧
        o.Level ≤ GoMap.index (0 : XLevel) xlogSeverityMap lv ∧
        (textAt (w.heap.read r) KeyMessage = none ∨
          assertTime (GoMap.get? (w.heap.read r) KeyTime) = none) := by
    rcases h with h | ⟨lv, hlv, hge, hbad⟩
    · exact Or.inl h
    · exact Or.inr ⟨lv, textAt_of_get hlv, hge, hbad⟩
  rw [Write_panics o env w r h']
  exact ⟨rfl, rfl⟩

/-- Witness of C4: the first case of `TestWriteBasic`. -/
theorem stacktrace_attached_when_level_le_witness :
    GoMap.get? ((worldOf testRecord).heap.read 0) KeyMessage = some (Value.str "message") ∧
    GoMap.get? ((worldOf testRecord).heap.read 0) KeyTime = some (Value.time testTime) ∧
    GoMap.get? ((worldOf testRecord).heap.read 0) KeyLevel = some (Value.str "info") ∧
    (testOutput true LevelInfo LevelInfo).Level ≤ GoMap.index (0 : XLevel) xlogSeverityMap "info" ∧
    (testOutput true LevelInfo LevelInfo).client.isSome = true ∧
    requestHasURL ((worldOf testRecord).heap.read 0) = true ∧
    ∃ ev, (Write (testOutput true LevelInfo LevelInfo) sampleEnv
          (worldOf testRecord) 0).world.captured = (worldOf testRecord).captured ++ [ev] ∧
      (hasStacktrace ev = true ↔
        ((testOutput true LevelInfo LevelInfo).StacktraceConfiguration.Enable = true ∧
          GoMap.index (0 : XLevel) xlogSeverityMap "info"
            ≤ (testOutput true LevelInfo LevelInfo).StacktraceConfiguration.Level)) ∧
      ("info" = "info" → (testOutput true LevelInfo LevelInfo).Level = LevelInfo →
        ((testOutput true LevelInfo LevelInfo).StacktraceConfiguration.Enable = true →
          ((testOutput true LevelInfo LevelInfo).StacktraceConfiguration.Level = LevelInfo ∨
            (testOutput true LevelInfo LevelInfo).StacktraceConfiguration.Level = LevelError) →
          hasStacktrace ev = true) ∧
        ((testOutput true LevelInfo LevelInfo).StacktraceConfiguration.Enable = true →
          (testOutput true LevelInfo LevelInfo).StacktraceConfiguration.Level = LevelDebug →
          hasStacktrace ev = false)) ∧
      ((testOutput true LevelInfo LevelInfo).StacktraceConfiguration.Enable = false →
        hasStacktrace ev = false) :=
  ⟨by decide, by decide, by decide, by decide, by decide, by decide,
    stacktrace_attached_when_level_le (testOutput true LevelInfo LevelInfo) sampleEnv
      (worldOf testRecord) 0 "message" "info" testTime (by decide) (by decide) (by decide)
      (by decide) (by decide) (by decide)⟩

/-- Witness of C5: a warn record with `host` and `server_name`. -/
theorem serverName_host_then_server_name_then_cached_witness :
    GoMap.get? ((worldOf richRecord).heap.read 0) KeyMessage = some (Value.str "message") ∧
    GoMap.get? ((worldOf richRecord).heap.read 0) KeyTime = some (Value.time testTime) ∧
    GoMap.get? ((worldOf richRecord).heap.read 0) KeyLevel = some (Value.str "warn") ∧
    (testOutput false LevelError LevelInfo).Level ≤ GoMap.index (0 : XLevel) xlogSeverityMap "warn" ∧
    (testOutput false LevelError LevelInfo).client.isSome = true ∧
    requestHasURL ((worldOf richRecord).heap.read 0) = true ∧
    ∃ ev f, (Write (testOutput false LevelError LevelInfo) sampleEnv
          (worldOf richRecord) 0).world.captured = (worldOf richRecord).captured ++ [ev] ∧
      fieldsOf (Write (testOutput false LevelError LevelInfo) sampleEnv (worldOf richRecord) 0) ev
        = some f ∧
      (∀ v, GoMap.get? ((worldOf richRecord).heap.read 0) "host" = some (Value.str v) →
        ev.ServerName = v ∧ GoMap.get? f "host" = none) ∧
      (textAt ((worldOf richRecord).heap.read 0) "host" = none →
        ∀ v, GoMap.get? ((worldOf richRecord).heap.read 0) "server_name" = some (Value.str v) →
          ev.ServerName = v ∧ GoMap.get? f "server_name" = none) ∧
      (textAt ((worldOf richRecord).heap.read 0) "host" = none →
        textAt ((worldOf richRecord).heap.read 0) "server_name" = none →
        ev.ServerName = (testOutput false LevelError LevelInfo).host) :=
  ⟨by decide, by decide, by decide, by decide, by decide, by decide,
    serverName_host_then_server_name_then_cached (testOutput false LevelError LevelInfo)
      sampleEnv (worldOf richRecord) 0 "message" "warn" testTime (by decide) (by decide)
      (by decide) (by decide) (by decide) (by decide)⟩

/-- Witness of C6: a warn record with both `culprit` and `role`. -/
theorem transaction_culprit_then_role_witness :
    GoMap.get? ((worldOf richRecord).heap.read 0) KeyMessage = some (Value.str "message") ∧
    GoMap.get? ((worldOf richRecord).heap.read 0) KeyTime = some (Value.time testTime) ∧
    GoMap.get? ((worldOf richRecord).heap.read 0) KeyLevel = some (Value.str "warn") ∧
    (testOutput false LevelError LevelInfo).Level ≤ GoMap.index (0 : XLevel) xlogSeverityMap "warn" ∧
    (testOutput false LevelError LevelInfo).client.isSome = true ∧
    requestHasURL ((worldOf richRecord).heap.read 0) = true ∧
    ∃ ev, (Write (testOutput false LevelError LevelInfo) sampleEnv
          (worldOf richRecord) 0).world.captured = (worldOf richRecord).captured ++ [ev] ∧
      (∀ c ro, GoMap.get? ((worldOf richRecord).heap.read 0) "culprit" = some (Value.str c) →
        GoMap.get? ((worldOf richRecord).heap.read 0) "role" = some (Value.str ro) →
        ev.Transaction = c) ∧
      (∀ c, GoMap.get? ((worldOf richRecord).heap.read 0) "culprit" = some (Value.str c) →
        ev.Transaction = c) ∧
      (textAt ((worldOf richRecord).heap.read 0) "culprit" = none →
        ∀ ro, GoMap.get? ((worldOf richRecord).heap.read 0) "role" = some (Value.str ro) →
          ev.Transaction = ro) ∧
      (textAt ((worldOf richRecord).heap.read 0) "culprit" = none →
        textAt ((worldOf richRecord).heap.read 0) "role" = none → ev.Transaction = "") :=
  ⟨by decide, by decide, by decide, by decide, by decide, by decide,
    transaction_culprit_then_role (testOutput false LevelError LevelInfo)
      sampleEnv (worldOf richRecord) 0 "message" "warn" testTime (by decide) (by decide)
      (by decide) (by decide) (by decide) (by decide)⟩

/-- Witness of C7: a warn record with optional keys and a key of its own. -/
theorem fields_subobject_contents_witness :
    GoMap.get? ((worldOf richRecord).heap.read 0) KeyMessage = some (Value.str "message") ∧
    GoMap.get? ((worldOf richRecord).heap.read 0) KeyTime = some (Value.time testTime) ∧
    GoMap.get? ((worldOf richRecord).heap.read 0) KeyLevel = some (Value.str "warn") ∧
    (testOutput false LevelError LevelInfo).Level ≤ GoMap.index (0 : XLevel) xlogSeverityMap "warn" ∧
    (testOutput false LevelError LevelInfo).client.isSome = true ∧
    requestHasURL ((worldOf richRecord).heap.read 0) = true ∧
    ∃ ev f, (Write (testOutput false LevelError LevelInfo) sampleEnv
          (worldOf richRecord) 0).world.captured = (worldOf richRecord).captured ++ [ev] ∧
      fieldsOf (Write (testOutput false LevelError LevelInfo) sampleEnv (worldOf richRecord) 0) ev
        = some f ∧
      (∀ k, k ∈ reservedKeys → GoMap.get? f k = none) ∧
      (GoMap.get? f "runtime.Version" = some (Value.str sampleEnv.runtimeVersion) ∧
        GoMap.get? f "runtime.NumCPU" = some (Value.int sampleEnv.numCPU) ∧
        GoMap.get? f "runtime.GOMAXPROCS" = some (Value.int sampleEnv.gomaxprocs) ∧
        GoMap.get? f "runtime.NumGoroutine" = some (Value.int sampleEnv.numGoroutine)) ∧
      (∀ k, k ∉ reservedKeys → k ∉ diagnosticKeys → k ∉ optionalKeys →
        GoMap.get? f k = GoMap.get? ((worldOf richRecord).heap.read 0) k) :=
  ⟨by decide, by decide, by decide, by decide, by decide, by decide,
    fields_subobject_contents (testOutput false LevelError LevelInfo)
      sampleEnv (worldOf richRecord) 0 "message" "warn" testTime (by decide) (by decide)
      (by decide) (by decide) (by decide) (by decide)⟩

/-- Witness of C8: the record of the test, written under threshold info. -/
theorem Write_leaves_caller_record_witness :
    0 < (worldOf testRecord).heap.length ∧
    ((Write (testOutput true LevelInfo LevelInfo) sampleEnv (worldOf testRecord) 0).world.heap.read 0
        = (worldOf testRecord).heap.read 0 ∧
      (∀ k, GoMap.get? ((Write (testOutput true LevelInfo LevelInfo) sampleEnv
            (worldOf testRecord) 0).world.heap.read 0) k
          = GoMap.get? ((worldOf testRecord).heap.read 0) k) ∧
      (∀ k, k ∈ reservedKeys →
        (GoMap.get? ((worldOf testRecord).heap.read 0) k).isSome = true →
        (GoMap.get? ((Write (testOutput true LevelInfo LevelInfo) sampleEnv
            (worldOf testRecord) 0).world.heap.read 0) k).isSome = true)) :=
  ⟨by decide,
    Write_leaves_caller_record (testOutput true LevelInfo LevelInfo) sampleEnv
      (worldOf testRecord) 0 (by decide)⟩

/-- Witness of C9: a record at level "fatal". -/
theorem unknown_level_is_debug_witness :
    GoMap.get? ((worldOf fatalRecord).heap.read 0) KeyLevel = some (Value.str "fatal") ∧
    "fatal" ∉ knownLevels ∧
    (recordLevel ((worldOf fatalRecord).heap.read 0) = some LevelDebug ∧
      GoMap.index (0 : XLevel) xlogSeverityMap "fatal"
        = GoMap.index (0 : XLevel) xlogSeverityMap "debug" ∧
      (LevelDebug < (testOutput false LevelError LevelDebug).Level →
        (Write (testOutput false LevelError LevelDebug) sampleEnv (worldOf fatalRecord) 0).outcome
          = Outcome.returned none ∧
        (Write (testOutput false LevelError LevelDebug) sampleEnv
          (worldOf fatalRecord) 0).world.captured = (worldOf fatalRecord).captured) ∧
      ((testOutput false LevelError LevelDebug).Level ≤ LevelDebug →
        (testOutput false LevelError LevelDebug).client.isSome = true →
        requestHasURL ((worldOf fatalRecord).heap.read 0) = true →
        ∀ msg ts, GoMap.get? ((worldOf fatalRecord).heap.read 0) KeyMessage
            = some (Value.str msg) →
          GoMap.get? ((worldOf fatalRecord).heap.read 0) KeyTime = some (Value.time ts) →
          (Write (testOutput false LevelError LevelDebug) sampleEnv
            (worldOf fatalRecord) 0).outcome = Outcome.returned none ∧
          ∃ ev, (Write (testOutput false LevelError LevelDebug) sampleEnv
                (worldOf fatalRecord) 0).world.captured = (worldOf fatalRecord).captured ++ [ev] ∧
            ev.Level = SentryLevelDebug ∧ ev.Message = msg ∧ ev.Timestamp = ts) ∧
      (∀ w' : World, w'.heap.length = (worldOf fatalRecord).heap.length →
        w'.captured = (worldOf fatalRecord).captured →
        w'.flushes = (worldOf fatalRecord).flushes →
        GoMap.get? (w'.heap.read 0) KeyLevel = some (Value.str "debug") →
        (∀ k, k ≠ KeyLevel →
          GoMap.get? (w'.heap.read 0) k = GoMap.get? ((worldOf fatalRecord).heap.read 0) k) →
        (Write (testOutput false LevelError LevelDebug) sampleEnv w' 0).outcome
          = (Write (testOutput false LevelError LevelDebug) sampleEnv
              (worldOf fatalRecord) 0).outcome ∧
        (Write (testOutput false LevelError LevelDebug) sampleEnv w' 0).world.captured
          = (Write (testOutput false LevelError LevelDebug) sampleEnv
              (worldOf fatalRecord) 0).world.captured ∧
        (Write (testOutput false LevelError LevelDebug) sampleEnv w' 0).world.flushes
          = (Write (testOutput false LevelError LevelDebug) sampleEnv
              (worldOf fatalRecord) 0).world.flushes ∧
        (∀ ev, (Write (testOutput false LevelError LevelDebug) sampleEnv
              (worldOf fatalRecord) 0).world.captured = (worldOf fatalRecord).captured ++ [ev] →
          ∃ f f', fieldsOf (Write (testOutput false LevelError LevelDebug) sampleEnv
                (worldOf fatalRecord) 0) ev = some f ∧
            fieldsOf (Write (testOutput false LevelError LevelDebug) sampleEnv w' 0) ev
              = some f' ∧
            ∀ k, GoMap.get? f' k = GoMap.get? f k))) :=
  ⟨by decide, by decide,
    unknown_level_is_debug (testOutput false LevelError LevelDebug) sampleEnv
      (worldOf fatalRecord) 0 "fatal" (by decide) (by decide)⟩

/-- Witness of C10 as amended: an error record whose message is a number. -/
theorem malformed_record_panics_witness :
    (textAt ((worldOf badMessageRecord).heap.read 0) KeyLevel = none ∨
      ∃ lv, GoMap.get? ((worldOf badMessageRecord).heap.read 0) KeyLevel
          = some (Value.str lv) ∧
        (testOutput false LevelError LevelInfo).Level
          ≤ GoMap.index (0 : XLevel) xlogSeverityMap lv ∧
        (textAt ((worldOf badMessageRecord).heap.read 0) KeyMessage = none ∨
          assertTime (GoMap.get? ((worldOf badMessageRecord).heap.read 0) KeyTime) = none)) ∧
    ((Write (testOutput false LevelError LevelInfo) sampleEnv
        (worldOf badMessageRecord) 0).outcome = Outcome.panicked ∧
      (Write (testOutput false LevelError LevelInfo) sampleEnv
        (worldOf badMessageRecord) 0).world.captured = (worldOf badMessageRecord).captured) :=
  ⟨Or.inr ⟨"error", by decide, by decide, Or.inl (by decide)⟩,
    malformed_record_panics (testOutput false LevelError LevelInfo) sampleEnv
      (worldOf badMessageRecord) 0
      (Or.inr ⟨"error", by decide, by decide, Or.inl (by decide)⟩)⟩

end XlogSentry
